import Mathlib

/-!
Shallow embedding of the indicator-derivation and risk-scoring pipeline of the
`datakind_dc_hackathon` repository (Scripts/baton_rouge_acs_housing.py,
Scripts/social_isolation_analyzer.py, Scripts/baton_rouge_data_pulls.py,
Scripts/baton_rouge_social_isolation_framework.py).

Cell values of a pandas DataFrame are modelled by `Val`: a finite number
(an exact rational standing for the float the scripts compute with), the
IEEE specials NaN, +inf and -inf, and strings (used for identifier and
category columns).  Signed zero is not modelled; where the scripts divide
by a zero produced from `+0.0` the quotient sign follows the numerator, as
in the actual runs.  A DataFrame is an ordered list of named columns.
-/

namespace BatonRouge

inductive Val where
  | num (q : ℚ)
  | nan
  | pinf
  | ninf
  | str (s : String)
deriving DecidableEq, Repr

namespace Val

/-- pandas `notna`: everything but NaN (strings included) is non-null. -/
def notna : Val → Bool
  | nan => false
  | _ => true

def isFin : Val → Bool
  | num _ => true
  | _ => false

def isStr : Val → Bool
  | str _ => true
  | _ => false

/-- IEEE comparison `x > 0` (false on NaN).  String cells never reach the
numeric comparisons in the modelled code paths; they compare false. -/
def gtZero : Val → Bool
  | num q => decide (0 < q)
  | pinf => true
  | _ => false

/-- IEEE addition; string operands (never produced by the modelled
arithmetic) map to NaN. -/
def vadd : Val → Val → Val
  | num a, num b => num (a + b)
  | num _, pinf => pinf
  | pinf, num _ => pinf
  | num _, ninf => ninf
  | ninf, num _ => ninf
  | pinf, pinf => pinf
  | ninf, ninf => ninf
  | pinf, ninf => nan
  | ninf, pinf => nan
  | _, _ => nan

def vneg : Val → Val
  | num q => num (-q)
  | pinf => ninf
  | ninf => pinf
  | _ => nan

def vsub (a b : Val) : Val := vadd a (vneg b)

/-- IEEE multiplication (`inf * 0 = NaN`). -/
def vmul : Val → Val → Val
  | num a, num b => num (a * b)
  | num a, pinf => if 0 < a then pinf else if a < 0 then ninf else nan
  | pinf, num b => if 0 < b then pinf else if b < 0 then ninf else nan
  | num a, ninf => if 0 < a then ninf else if a < 0 then pinf else nan
  | ninf, num b => if 0 < b then ninf else if b < 0 then pinf else nan
  | pinf, pinf => pinf
  | pinf, ninf => ninf
  | ninf, pinf => ninf
  | ninf, ninf => pinf
  | _, _ => nan

/-- IEEE division: `0/0 = NaN`, `x/0 = ±inf` by the sign of `x`,
`finite/±inf = 0`, `±inf/±inf = NaN`. -/
def vdiv : Val → Val → Val
  | num a, num b =>
      if b = 0 then (if a = 0 then nan else if 0 < a then pinf else ninf)
      else num (a / b)
  | num _, pinf => num 0
  | num _, ninf => num 0
  | pinf, num b => if 0 ≤ b then pinf else ninf
  | ninf, num b => if 0 ≤ b then ninf else pinf
  | pinf, pinf => nan
  | pinf, ninf => nan
  | ninf, pinf => nan
  | ninf, ninf => nan
  | _, _ => nan

/-- `DataFrame.replace([np.inf, -np.inf, np.nan], 0)` on one cell. -/
def clean : Val → Val
  | nan => num 0
  | pinf => num 0
  | ninf => num 0
  | v => v

/-- `Series.fillna(0)` on one cell. -/
def fill0 : Val → Val
  | nan => num 0
  | v => v

end Val

/-- A DataFrame: an ordered association list of named columns. -/
structure Table where
  cols : List (String × List Val)
deriving DecidableEq, Repr

namespace Table

def colNames (t : Table) : List String := t.cols.map Prod.fst

def getCol? (t : Table) (n : String) : Option (List Val) :=
  (t.cols.find? (fun p => p.1 == n)).map Prod.snd

def hasCol (t : Table) (n : String) : Bool :=
  (t.cols.find? (fun p => p.1 == n)).isSome

def nrows (t : Table) : Nat :=
  match t.cols with
  | [] => 0
  | p :: _ => p.2.length

/-- `df[n]`.  Every read in the modelled scripts sits under a presence
check that guarantees the column exists; for an absent column (never
reached in a modelled run — pandas would raise) the default is an all-NaN
column of the right length, which keeps frames rectangular. -/
def col (t : Table) (n : String) : List Val :=
  (t.getCol? n).getD (List.replicate t.nrows Val.nan)

/-- pandas `df.empty`: true when either axis has length 0. -/
def isEmptyTab (t : Table) : Bool := t.cols.isEmpty || t.nrows == 0

/-- `df[n] = series`: overwrite in place if the column exists,
append at the end otherwise. -/
def setCol (t : Table) (n : String) (vs : List Val) : Table :=
  if t.hasCol n then ⟨t.cols.map (fun p => if p.1 == n then (n, vs) else p)⟩
  else ⟨t.cols ++ [(n, vs)]⟩

def mapVals (t : Table) (f : Val → Val) : Table :=
  ⟨t.cols.map (fun p => (p.1, p.2.map f))⟩

/-- Well-formed DataFrame: distinct column names, rectangular shape. -/
def WF (t : Table) : Prop :=
  t.colNames.Nodup ∧ ∀ p ∈ t.cols, p.2.length = t.nrows

instance : DecidablePred WF := fun t => by
  unfold WF; infer_instance

end Table

/-- `df[ns].sum(axis=1)` with pandas' default `skipna=True`: per row, the
sum of the non-NaN entries (0 for an all-NaN row). -/
def rowSumSkipNa (columns : List (List Val)) (n : Nat) : List Val :=
  (List.range n).map (fun i =>
    ((columns.map (fun c => c.getD i Val.nan)).filter Val.notna).foldl Val.vadd (Val.num 0))

/-- `df[ns].mean(axis=1)` with `skipna=True`: NaN for an all-NaN row. -/
def rowMeanSkipNa (columns : List (List Val)) (n : Nat) : List Val :=
  (List.range n).map (fun i =>
    let valid := (columns.map (fun c => c.getD i Val.nan)).filter Val.notna
    if valid.isEmpty then Val.nan
    else (valid.foldl Val.vadd (Val.num 0)).vdiv (Val.num valid.length))

/-- `safe_divide` of `calculate_derived_indicators`
(baton_rouge_acs_housing.py, lines 643-646):
`np.where((den > 0) & num.notna() & den.notna(), num / den * 100, 0)`
on one cell. -/
def safe_divide (n d : Val) : Val :=
  if d.gtZero && n.notna && d.notna then (n.vdiv d).vmul (Val.num 100) else Val.num 0

def seriesSafeDiv (ns ds : List Val) : List Val := List.zipWith safe_divide ns ds

/-- Numerator expressions occurring in `calculate_derived_indicators`:
a plain column, an inline `df[ns].sum(axis=1)`, or the sum of two columns. -/
inductive NumExpr where
  | colE (n : String)
  | sumE (ns : List String)
  | add2 (a b : String)
deriving DecidableEq, Repr

def NumExpr.reads : NumExpr → List String
  | .colE n => [n]
  | .sumE ns => ns
  | .add2 a b => [a, b]

def NumExpr.eval (e : NumExpr) (t : Table) : List Val :=
  match e with
  | .colE n => t.col n
  | .sumE ns => rowSumSkipNa (ns.map t.col) t.nrows
  | .add2 a b => List.zipWith Val.vadd (t.col a) (t.col b)

/-- One assignment in `calculate_derived_indicators`: a `safe_divide`
percentage, a group sum, or a plain column copy. -/
inductive OutExpr where
  | sdiv (nume : NumExpr) (den : String)
  | rsum (ns : List String)
  | copy (n : String)
deriving DecidableEq, Repr

def OutExpr.reads : OutExpr → List String
  | .sdiv e d => e.reads ++ [d]
  | .rsum ns => ns
  | .copy n => [n]

def OutExpr.eval (o : OutExpr) (t : Table) : List Val :=
  match o with
  | .sdiv e d => seriesSafeDiv (e.eval t) (t.col d)
  | .rsum ns => rowSumSkipNa (ns.map t.col) t.nrows
  | .copy n => t.col n

/-- One `if all(col in df.columns for col in [...]):` block of assignments. -/
structure Block where
  guardCols : List String
  outs : List (String × OutExpr)
deriving DecidableEq, Repr

def runOuts (outs : List (String × OutExpr)) (t : Table) : Table :=
  outs.foldl (fun d o => d.setCol o.1 (o.2.eval d)) t

def runBlock (b : Block) (t : Table) : Table :=
  if b.guardCols.all t.hasCol then runOuts b.outs t else t

def runBlocks (bs : List Block) (t : Table) : Table :=
  bs.foldl (fun d b => runBlock b d) t

def incomeCols : List String :=
  ["Income_Under_10K", "Income_10K_15K", "Income_15K_20K", "Income_20K_25K",
   "Income_25K_30K", "Income_30K_35K"]

def middleIncomeCols : List String :=
  ["Income_35K_40K", "Income_40K_45K", "Income_45K_50K", "Income_50K_60K",
   "Income_60K_75K", "Income_75K_100K"]

def highIncomeCols : List String :=
  ["Income_100K_125K", "Income_125K_150K", "Income_150K_200K", "Income_200K_Plus"]

def childPovertyCols : List String :=
  ["Below_Poverty_Male_Under_5", "Below_Poverty_Male_6_11", "Below_Poverty_Male_12_14",
   "Below_Poverty_Male_15", "Below_Poverty_Male_16_17", "Below_Poverty_Female_Under_5",
   "Below_Poverty_Female_6_11", "Below_Poverty_Female_12_14", "Below_Poverty_Female_15",
   "Below_Poverty_Female_16_17"]

def multiFamilyCols : List String :=
  ["Units_2", "Units_3_4", "Units_5_9", "Units_10_19", "Units_20_49", "Units_50_Plus"]

def newHousingCols : List String :=
  ["Built_2020_Later", "Built_2010_2019", "Built_2000_2009"]

def oldHousingCols : List String :=
  ["Built_1970_1979", "Built_1960_1969", "Built_1950_1959", "Built_1940_1949",
   "Built_1939_Earlier"]

def bedroomCols : List String :=
  ["Two_Bedrooms", "Three_Bedrooms", "Four_Bedrooms", "Five_Plus_Bedrooms"]

def rentBurdenCols : List String :=
  ["Rent_Burden_30_34_Pct", "Rent_Burden_35_39_Pct", "Rent_Burden_40_49_Pct",
   "Rent_Burden_50_Plus_Pct"]

/-- The guarded assignment blocks of `calculate_derived_indicators`
(baton_rouge_acs_housing.py, lines 639-756), in source order.  The one
nested check of the source (the children-in-poverty block first computes
the sum under the outer guard and then tests `Total_Pop_Under_18` for the
percentage) is flattened into two consecutive blocks, the second guarded
by the outer columns plus `Total_Pop_Under_18`; since the outer block only
adds `Children_Below_Poverty`, which the inner test does not mention, both
renderings run the same assignments. -/
def derivedBlocks : List Block := [
  ⟨["White_Alone", "Black_Alone", "Asian_Alone", "Hispanic_Latino", "Total_Population"],
   [("Percent_White", .sdiv (.colE "White_Alone") "Total_Population"),
    ("Percent_Black", .sdiv (.colE "Black_Alone") "Total_Population"),
    ("Percent_Asian", .sdiv (.colE "Asian_Alone") "Total_Population"),
    ("Percent_Hispanic", .sdiv (.colE "Hispanic_Latino") "Total_Population")]⟩,
  ⟨incomeCols, [("Low_Income_Under_35K", .rsum incomeCols)]⟩,
  ⟨middleIncomeCols, [("Middle_Income_35K_100K", .rsum middleIncomeCols)]⟩,
  ⟨highIncomeCols, [("High_Income_100K_Plus", .rsum highIncomeCols)]⟩,
  ⟨["Low_Income_Under_35K", "High_Income_100K_Plus", "Total_Households"],
   [("Percent_Low_Income_Under_35K", .sdiv (.colE "Low_Income_Under_35K") "Total_Households"),
    ("Percent_High_Income_100K_Plus", .sdiv (.colE "High_Income_100K_Plus") "Total_Households")]⟩,
  ⟨["Below_Poverty_Level", "Total_Pop_Poverty_Status"],
   [("Percent_Below_Poverty", .sdiv (.colE "Below_Poverty_Level") "Total_Pop_Poverty_Status")]⟩,
  ⟨["Below_Poverty_Households", "Total_Households_Poverty_Status"],
   [("Percent_Households_Below_Poverty",
     .sdiv (.colE "Below_Poverty_Households") "Total_Households_Poverty_Status")]⟩,
  ⟨childPovertyCols, [("Children_Below_Poverty", .rsum childPovertyCols)]⟩,
  ⟨childPovertyCols ++ ["Total_Pop_Under_18"],
   [("Percent_Children_Below_Poverty",
     .sdiv (.colE "Children_Below_Poverty") "Total_Pop_Under_18")]⟩,
  ⟨["Family_Households", "Total_Households"],
   [("Percent_Family_Households", .sdiv (.colE "Family_Households") "Total_Households")]⟩,
  ⟨["Nonfamily_Living_Alone", "Total_Households"],
   [("Percent_Single_Person_Households",
     .sdiv (.colE "Nonfamily_Living_Alone") "Total_Households")]⟩,
  ⟨["Households_With_Children_Under_18", "Total_Households_Children_Status"],
   [("Percent_Households_With_Children",
     .sdiv (.colE "Households_With_Children_Under_18") "Total_Households_Children_Status")]⟩,
  ⟨["Children_In_Married_Couple_Families", "Total_Own_Children_Under_18"],
   [("Percent_Children_Married_Couple",
     .sdiv (.colE "Children_In_Married_Couple_Families") "Total_Own_Children_Under_18")]⟩,
  ⟨["Children_In_Single_Mother_Families", "Children_In_Single_Father_Families",
    "Total_Own_Children_Under_18"],
   [("Percent_Children_Single_Parent",
     .sdiv (.add2 "Children_In_Single_Mother_Families" "Children_In_Single_Father_Families")
       "Total_Own_Children_Under_18")]⟩,
  ⟨["Occupied_Units", "Vacant_Units", "Total_Housing_Units"],
   [("Percent_Occupied", .sdiv (.colE "Occupied_Units") "Total_Housing_Units"),
    ("Percent_Vacant", .sdiv (.colE "Vacant_Units") "Total_Housing_Units")]⟩,
  ⟨["Owner_Occupied", "Renter_Occupied", "Total_Occupied_Units"],
   [("Percent_Owner_Occupied", .sdiv (.colE "Owner_Occupied") "Total_Occupied_Units"),
    ("Percent_Renter_Occupied", .sdiv (.colE "Renter_Occupied") "Total_Occupied_Units")]⟩,
  ⟨["Single_Family_Detached", "Single_Family_Attached", "Total_Housing_Units"],
   [("Percent_Single_Family",
     .sdiv (.add2 "Single_Family_Detached" "Single_Family_Attached") "Total_Housing_Units")]⟩,
  ⟨multiFamilyCols ++ ["Total_Housing_Units"],
   [("Multi_Family_All_Units", .rsum multiFamilyCols),
    ("Percent_Multi_Family_All", .sdiv (.colE "Multi_Family_All_Units") "Total_Housing_Units")]⟩,
  ⟨newHousingCols ++ ["Total_Housing_Units"],
   [("Percent_Built_2000_Plus", .sdiv (.sumE newHousingCols) "Total_Housing_Units")]⟩,
  ⟨oldHousingCols ++ ["Total_Housing_Units"],
   [("Percent_Built_Pre_1980", .sdiv (.sumE oldHousingCols) "Total_Housing_Units")]⟩,
  ⟨bedroomCols ++ ["Total_Housing_Units"],
   [("Two_Plus_Bedroom_Units", .rsum bedroomCols),
    ("Percent_Two_Plus_Bedrooms", .sdiv (.colE "Two_Plus_Bedroom_Units") "Total_Housing_Units")]⟩,
  ⟨rentBurdenCols ++ ["Renter_Occupied"],
   [("High_Rent_Burden_30_Plus_Units", .rsum rentBurdenCols),
    ("High_Rent_Burden_50_Plus_Units", .copy "Rent_Burden_50_Plus_Pct"),
    ("Percent_High_Rent_Burden_30_Plus",
     .sdiv (.colE "High_Rent_Burden_30_Plus_Units") "Renter_Occupied"),
    ("Percent_High_Rent_Burden_50_Plus",
     .sdiv (.colE "High_Rent_Burden_50_Plus_Units") "Renter_Occupied")]⟩]

/-- `calculate_derived_indicators` (baton_rouge_acs_housing.py, lines
639-756): run every guarded block in order, then
`df.replace([np.inf, -np.inf, np.nan], 0)`. -/
def calculate_derived_indicators (wide : Table) : Table :=
  (runBlocks derivedBlocks wide).mapVals Val.clean

def writesOfOuts (outs : List (String × OutExpr)) : List String := outs.map Prod.fst

def writesOfBlock (b : Block) : List String := writesOfOuts b.outs

/-- Side conditions on a block chain under which re-running is the
identity on the first run's output: no assignment's target or read
columns are written later in the chain, no assignment reads its own
target, and no guard column is written at or after its block.  All hold
for `derivedBlocks` by computation. -/
def outsOK : List (String × OutExpr) → List String → Bool
  | [], _ => true
  | o :: rest, later =>
      (o.2.reads).all (fun c => !((writesOfOuts rest ++ later).contains c)) &&
      !((writesOfOuts rest ++ later).contains o.1) &&
      !(o.2.reads.contains o.1) &&
      outsOK rest later

def writesOfBlocks (bs : List Block) : List String := (bs.map writesOfBlock).flatten

def chainOK : List Block → Bool
  | [] => true
  | b :: rest =>
      b.guardCols.all (fun c => !((writesOfBlock b ++ writesOfBlocks rest).contains c)) &&
      outsOK b.outs (writesOfBlocks rest) &&
      chainOK rest

/-- Each block's `copy` assignments read only guard-checked columns
(needed so that an all-finite frame stays all-finite). -/
def copyReadsOK (bs : List Block) : Bool :=
  bs.all (fun b => b.outs.all (fun o =>
    match o.2 with
    | OutExpr.copy nm => b.guardCols.contains nm
    | _ => true))

def blocksNonempty (bs : List Block) : Bool := bs.all (fun b => !b.guardCols.isEmpty)

/-- All columns have the given length (a rectangular frame). -/
def Table.rect (t : Table) (n : Nat) : Prop := ∀ p ∈ t.cols, p.2.length = n

instance (t : Table) (n : Nat) : Decidable (t.rect n) :=
  inferInstanceAs (Decidable (∀ p ∈ t.cols, p.2.length = n))

/-- NaN, +inf or -inf — the values `replace([inf, -inf, nan], 0)` rewrites. -/
def Val.isSpecial : Val → Bool
  | Val.nan => true
  | Val.pinf => true
  | Val.ninf => true
  | _ => false

/-- No cell of the table is NaN or ±inf. -/
def noSpecials (t : Table) : Bool :=
  t.cols.all (fun p => p.2.all (fun v => !v.isSpecial))

/-- Every cell of the table is a finite number. -/
def allNum (t : Table) : Bool := t.cols.all (fun p => p.2.all Val.isFin)

/-- A finite number or NaN — what a read of an `allNum` frame can yield
under the shape-preserving absent-column default. -/
def Val.finOrNan (v : Val) : Bool := v.isFin || v == Val.nan

/-- A one-row table whose `Children_In_Single_Mother_Families` cell is
NaN: the first pass computes `Percent_Children_Single_Parent = 0` (the
NaN numerator fails `notna`) and then replaces the NaN source with 0, so
the second pass recomputes the percentage as `(0+5)/10*100 = 50`. -/
def nanSingleParentTable : Table :=
  ⟨[("Children_In_Single_Mother_Families", [Val.nan]),
    ("Children_In_Single_Father_Families", [Val.num 5]),
    ("Total_Own_Children_Under_18", [Val.num 10])]⟩


/-! ### String helpers

Structural implementations of the string operations the scripts use
(`"Cost_Burden" in col`, `endswith`, lexicographic sorting), written over
`String.data` so that concrete instances evaluate by `decide`. -/

def strContainsAux (pat : List Char) : List Char → Bool
  | [] => pat.isEmpty
  | c :: rest => (pat.isPrefixOf (c :: rest)) || strContainsAux pat rest

/-- Python `pat in s` on strings: `pat` occurs as a substring of `s`. -/
def strContains (s pat : String) : Bool := strContainsAux pat.data s.data

def charListLe : List Char → List Char → Bool
  | [], _ => true
  | _ :: _, [] => false
  | a :: as, b :: bs => if a = b then charListLe as bs else decide (a < b)

def strLe (a b : String) : Bool := charListLe a.data b.data

def pairLe (a b : String × String) : Bool :=
  if a.1 = b.1 then strLe a.2 b.2 else strLe a.1 b.1

def insSorted (le : α → α → Bool) (x : α) : List α → List α
  | [] => [x]
  | y :: ys => if le x y then x :: y :: ys else y :: insSorted le x ys

/-- Insertion sort; on duplicate-free keys it agrees with the sort the
pandas pivot applies to its index and columns. -/
def sortBy (le : α → α → Bool) (l : List α) : List α := l.foldr (insSorted le) []

/-! ### `calculate_housing_quality_indicators`
(social_isolation_analyzer.py, lines 64-107) -/

/-- Elementwise `Series / Series` (or `/` against a broadcast scalar). -/
def seriesDivBy (ns ds : List Val) : List Val := List.zipWith Val.vdiv ns ds

def seriesSub (as bs : List Val) : List Val := List.zipWith Val.vsub as bs

/-- `series * 100`. -/
def seriesMul100 (vs : List Val) : List Val := vs.map (fun v => v.vmul (Val.num 100))

namespace Table

/-- `df.get(n, d)` with a scalar default: the column when present, else
the scalar broadcast along the rows. -/
def getSeriesD (t : Table) (n : String) (d : ℚ) : List Val :=
  match t.getCol? n with
  | some vs => vs
  | none => List.replicate t.nrows (Val.num d)

end Table

/-- `calculate_housing_quality_indicators` (social_isolation_analyzer.py,
lines 64-107).  The six indicator assignments in source order; the
`[col for col in df.columns if ...]` scans run against the columns of the
running frame, exactly as in the source.  Note the denominators taken via
`df.get(..., 1)` and the absence of any zero-denominator guard on
`Renter_Rate`; only `Housing_Vacancy_Rate` gets a `fillna(0)`. -/
def calculate_housing_quality_indicators (acs : Table) : Table :=
  let df := acs
  let df :=
    if df.hasCol "Total_Housing_Units" && df.hasCol "Occupied_Units" then
      df.setCol "Housing_Vacancy_Rate"
        ((seriesMul100 (seriesDivBy
            (seriesSub (df.col "Total_Housing_Units") (df.col "Occupied_Units"))
            (df.col "Total_Housing_Units"))).map Val.fill0)
    else df
  let cb := df.colNames.filter (fun c => strContains c "Cost_Burden")
  let df :=
    if !cb.isEmpty then
      df.setCol "High_Housing_Cost_Burden_Rate"
        (seriesMul100 (seriesDivBy (rowSumSkipNa (cb.map df.col) df.nrows)
          (df.getSeriesD "Total_Households" 1)))
    else df
  let oh := df.colNames.filter (fun c =>
    strContains c "1939" || strContains c "1940_1949" || strContains c "1950_1959")
  let df :=
    if !oh.isEmpty then
      df.setCol "Old_Housing_Rate"
        (seriesMul100 (seriesDivBy (rowSumSkipNa (oh.map df.col) df.nrows)
          (df.getSeriesD "Total_Housing_Units" 1)))
    else df
  let df :=
    if df.hasCol "Mobile_Home" then
      df.setCol "Mobile_Home_Rate"
        (seriesMul100 (seriesDivBy (df.col "Mobile_Home")
          (df.getSeriesD "Total_Housing_Units" 1)))
    else df
  let df :=
    if df.hasCol "Renter_Occupied" && df.hasCol "Occupied_Units" then
      df.setCol "Renter_Rate"
        (seriesMul100 (seriesDivBy (df.col "Renter_Occupied") (df.col "Occupied_Units")))
    else df
  let oc := df.colNames.filter (fun c => strContains c "More_Than_1_Person_Per_Room")
  if !oc.isEmpty then
    df.setCol "Overcrowding_Rate"
      (seriesMul100 (seriesDivBy (rowSumSkipNa (oc.map df.col) df.nrows)
        (df.getSeriesD "Occupied_Units" 1)))
  else df

/-! ### `develop_isolation_risk_model`
(social_isolation_analyzer.py, lines 345-416) -/

def riskFactorGroups : List (String × List String) :=
  [("Housing_Risk",
    ["Housing_Cost_Burden_Rate", "Old_Housing_Rate", "Overcrowding_Rate",
     "Mobile_Home_Rate", "Housing_Vacancy_Rate"]),
   ("Demographic_Risk",
    ["Elderly_Living_Alone_Rate", "Single_Person_Household_Rate",
     "Language_Isolation_Rate", "Disability_Rate", "No_Vehicle_Rate"]),
   ("Economic_Risk",
    ["Poverty_Rate", "Unemployment_Rate", "No_Internet_Rate"])]

def riskComponents : List String := ["Housing_Risk", "Demographic_Risk", "Economic_Risk"]

def allRiskFactors : List String := (riskFactorGroups.map Prod.snd).flatten

def validNums (vs : List Val) : List ℚ :=
  vs.filterMap (fun v => match v with | Val.num q => some q | _ => none)

def meanQ (l : List ℚ) : ℚ := l.sum / l.length

/-- Sample variance with pandas' `ddof = 1`. -/
def varQ (l : List ℚ) : ℚ :=
  (l.map (fun x => (x - meanQ l) ^ 2)).sum / ((l.length : ℚ) - 1)

/-- The test `df[factor].std() > 0` of the source.  With `skipna` and
`ddof = 1` the standard deviation is NaN (comparing false) when fewer than
two non-null values or any ±inf is present, and otherwise equals
`sqrt variance`, which is `> 0` exactly when the variance is `> 0`. -/
def stdPos (vs : List Val) : Bool :=
  let valid := vs.filter Val.notna
  decide (2 ≤ valid.length) && valid.all Val.isFin && decide (0 < varQ (validNums vs))

/-- `df[factor].std()` is exactly 0: at least two non-null values, all
finite, of zero variance (a constant column). -/
def stdIsZero (vs : List Val) : Bool :=
  let valid := vs.filter Val.notna
  decide (2 ≤ valid.length) && valid.all Val.isFin && decide (varQ (validNums vs) = 0)

/-- z-scores of one factor column, `(x - mean) / std`.  The parameter `sq`
supplies the square root through which pandas obtains the standard
deviation from the variance (ℚ itself has no square root); every theorem
below holds for every `sq`, and none constrains this branch's values. -/
def zcol (sq : ℚ → ℚ) (vs : List Val) : List Val :=
  let m := meanQ (validNums vs)
  let s := sq (varQ (validNums vs))
  vs.map (fun v => (v.vsub (Val.num m)).vdiv (Val.num s))

/-- `pd.cut(..., bins=[-inf, -0.5, 0.5, inf], labels=[...])` on one cell:
right-closed bins, NaN passed through; `-inf` misses the left-open first
bin. -/
def riskCut : Val → Val
  | Val.num q =>
      if q ≤ -(1 / 2) then Val.str "Low Risk"
      else if q ≤ 1 / 2 then Val.str "Moderate Risk"
      else Val.str "High Risk"
  | Val.pinf => Val.str "High Risk"
  | _ => Val.nan

/-- One factor's standardized column: the z-scores when
`df[factor].std() > 0`, otherwise the scalar 0 broadcast over the rows. -/
def stdColVal (sq : ℚ → ℚ) (vs : List Val) (nr : Nat) : List Val :=
  if stdPos vs then zcol sq vs else List.replicate nr (Val.num 0)

/-- The `for factor in available_factors` loop: standardize each
available factor into its `<factor>_std` column. -/
def stdFold (sq : ℚ → ℚ) (avail : List String) (df : Table) : Table :=
  avail.foldl (fun df f => df.setCol (f ++ "_std") (stdColVal sq (df.col f) df.nrows)) df

/-- One iteration of the `for factor_group, factors in [...]` loop:
skip the group when none of its factors is present, otherwise set the
`_std` columns and then the group's category score (the row-wise mean of
the standardized columns). -/
def groupStep (sq : ℚ → ℚ) (df : Table) (g : String × List String) : Table :=
  let avail := g.2.filter df.hasCol
  if avail.isEmpty then df
  else
    let df2 := stdFold sq avail df
    df2.setCol g.1 (rowMeanSkipNa (avail.map (fun f => df2.col (f ++ "_std"))) df2.nrows)

/-- `develop_isolation_risk_model` (social_isolation_analyzer.py, lines
345-416): per factor group, z-standardize each listed factor present in
the frame (a zero/NaN standard deviation yields the constant 0 column),
average the standardized columns into the group's category score, then
average the present category scores into `Social_Isolation_Risk_Index`
and bucket it into `Risk_Category`. -/
def develop_isolation_risk_model (sq : ℚ → ℚ) (df0 : Table) : Table :=
  if df0.isEmptyTab then df0 else
  let df := riskFactorGroups.foldl (groupStep sq) df0
  let availComp := riskComponents.filter df.hasCol
  if availComp.isEmpty then df else
  let df2 := df.setCol "Social_Isolation_Risk_Index"
    (rowMeanSkipNa (availComp.map df.col) df.nrows)
  df2.setCol "Risk_Category" ((df2.col "Social_Isolation_Risk_Index").map riskCut)

/-- The column names one factor group's iteration may write. -/
def gwrites (g : String × List String) : List String :=
  g.2.map (· ++ "_std") ++ [g.1]

def gswrites (gs : List (String × List String)) : List String :=
  (gs.map gwrites).flatten

/-- The columns the group loop appends to a frame in which none of them
pre-exist, as a function of which factors are present. -/
def appendedGroups (gs : List (String × List String)) (has : String → Bool) :
    List String :=
  (gs.map (fun g =>
    if (g.2.filter has).isEmpty then []
    else (g.2.filter has).map (· ++ "_std") ++ [g.1])).flatten

/-- All columns `develop_isolation_risk_model` appends to such a frame. -/
def riskAppendedCols (has : String → Bool) : List String :=
  appendedGroups riskFactorGroups has ++
  (if riskFactorGroups.all (fun g => (g.2.filter has).isEmpty) then []
   else ["Social_Isolation_Risk_Index", "Risk_Category"])


/-! ### `transform_to_wide_format`
(baton_rouge_acs_housing.py, lines 598-637) -/

/-- One row of the long-format input: geography key, geography name,
Census variable code, and the estimate after `pd.to_numeric(...,
errors="coerce")` — `none` is a value that fails numeric coercion. -/
structure LongRow where
  geoid : String
  name : String
  varCode : String
  estimate : Option ℚ
deriving DecidableEq, Repr

/-- `create_variable_mapping` (baton_rouge_acs_housing.py, lines 400-596),
transcribed entry for entry. -/
def baseMapping : List (String × String) := [
  ("B01003_001", "Total_Population"),
  ("B02001_002", "White_Alone"),
  ("B02001_003", "Black_Alone"),
  ("B02001_005", "Asian_Alone"),
  ("B03003_003", "Hispanic_Latino"),
  ("B19013_001", "Median_Household_Income"),
  ("B19001_002", "Income_Under_10K"),
  ("B19001_003", "Income_10K_15K"),
  ("B19001_004", "Income_15K_20K"),
  ("B19001_005", "Income_20K_25K"),
  ("B19001_006", "Income_25K_30K"),
  ("B19001_007", "Income_30K_35K"),
  ("B19001_008", "Income_35K_40K"),
  ("B19001_009", "Income_40K_45K"),
  ("B19001_010", "Income_45K_50K"),
  ("B19001_011", "Income_50K_60K"),
  ("B19001_012", "Income_60K_75K"),
  ("B19001_013", "Income_75K_100K"),
  ("B19001_014", "Income_100K_125K"),
  ("B19001_015", "Income_125K_150K"),
  ("B19001_016", "Income_150K_200K"),
  ("B19001_017", "Income_200K_Plus"),
  ("B19101_001", "Total_Families"),
  ("B19101_017", "Family_Income_200K_Plus"),
  ("B17001_001", "Total_Pop_Poverty_Status"),
  ("B17001_002", "Below_Poverty_Level"),
  ("B17001_003", "Below_Poverty_Male_Total"),
  ("B17001_004", "Below_Poverty_Male_Under_5"),
  ("B17001_005", "Below_Poverty_Male_5"),
  ("B17001_006", "Below_Poverty_Male_6_11"),
  ("B17001_007", "Below_Poverty_Male_12_14"),
  ("B17001_008", "Below_Poverty_Male_15"),
  ("B17001_009", "Below_Poverty_Male_16_17"),
  ("B17001_017", "Below_Poverty_Female_Total"),
  ("B17001_018", "Below_Poverty_Female_Under_5"),
  ("B17001_019", "Below_Poverty_Female_5"),
  ("B17001_020", "Below_Poverty_Female_6_11"),
  ("B17001_021", "Below_Poverty_Female_12_14"),
  ("B17001_022", "Below_Poverty_Female_15"),
  ("B17001_023", "Below_Poverty_Female_16_17"),
  ("B17001_031", "Above_Poverty_Level"),
  ("B17017_001", "Total_Households_Poverty_Status"),
  ("B17017_002", "Below_Poverty_Households"),
  ("B17017_010", "Above_Poverty_Households"),
  ("B25119_001", "Median_Household_Income_All_Tenure"),
  ("B25119_002", "Median_Income_Owner_Occupied"),
  ("B25119_003", "Median_Income_Renter_Occupied"),
  ("B11001_001", "Total_Households"),
  ("B11001_002", "Family_Households"),
  ("B11001_003", "Family_Married_Couple"),
  ("B11001_004", "Family_Male_No_Wife"),
  ("B11001_005", "Family_Female_No_Husband"),
  ("B11001_007", "Nonfamily_Households"),
  ("B11001_008", "Nonfamily_Living_Alone"),
  ("B11001_009", "Nonfamily_Not_Alone"),
  ("B11005_001", "Total_Households_Children_Status"),
  ("B11005_002", "Households_With_Children_Under_18"),
  ("B11005_011", "Households_No_Children_Under_18"),
  ("B09002_001", "Total_Own_Children_Under_18"),
  ("B09002_002", "Children_In_Married_Couple_Families"),
  ("B09002_009", "Children_In_Single_Father_Families"),
  ("B09002_015", "Children_In_Single_Mother_Families"),
  ("B09001_001", "Total_Pop_Under_18"),
  ("B09001_002", "Pop_Under_3"),
  ("B09001_003", "Pop_3_4"),
  ("B09001_004", "Pop_5"),
  ("B09001_005", "Pop_6_11"),
  ("B09001_006", "Pop_12_14"),
  ("B09001_007", "Pop_15_17"),
  ("B25115_001", "Total_Occupied_Units_Size"),
  ("B25115_002", "Owner_1_Person"),
  ("B25115_003", "Owner_2_Person"),
  ("B25115_004", "Owner_3_Person"),
  ("B25115_005", "Owner_4_Person"),
  ("B25115_006", "Owner_5_Person"),
  ("B25115_007", "Owner_6_Person"),
  ("B25115_008", "Owner_7_Plus_Person"),
  ("B25115_010", "Renter_1_Person"),
  ("B25115_011", "Renter_2_Person"),
  ("B25115_012", "Renter_3_Person"),
  ("B25115_013", "Renter_4_Person"),
  ("B25115_014", "Renter_5_Person"),
  ("B25115_015", "Renter_6_Person"),
  ("B25115_016", "Renter_7_Plus_Person"),
  ("B25001_001", "Total_Housing_Units"),
  ("B25002_001", "Total_Housing_Units_Check"),
  ("B25002_002", "Occupied_Units"),
  ("B25002_003", "Vacant_Units"),
  ("B25003_001", "Total_Occupied_Units"),
  ("B25003_002", "Owner_Occupied"),
  ("B25003_003", "Renter_Occupied"),
  ("B25077_001", "Median_Home_Value"),
  ("B25064_001", "Median_Gross_Rent"),
  ("B25024_002", "Single_Family_Detached"),
  ("B25024_003", "Single_Family_Attached"),
  ("B25024_004", "Units_2"),
  ("B25024_005", "Units_3_4"),
  ("B25024_006", "Units_5_9"),
  ("B25024_007", "Units_10_19"),
  ("B25024_008", "Units_20_49"),
  ("B25024_009", "Units_50_Plus"),
  ("B25024_010", "Mobile_Home"),
  ("B25024_011", "Other_Housing_Type"),
  ("B25034_002", "Built_2020_Later"),
  ("B25034_003", "Built_2010_2019"),
  ("B25034_004", "Built_2000_2009"),
  ("B25034_005", "Built_1990_1999"),
  ("B25034_006", "Built_1980_1989"),
  ("B25034_007", "Built_1970_1979"),
  ("B25034_008", "Built_1960_1969"),
  ("B25034_009", "Built_1950_1959"),
  ("B25034_010", "Built_1940_1949"),
  ("B25034_011", "Built_1939_Earlier"),
  ("B25041_002", "No_Bedroom"),
  ("B25041_003", "One_Bedroom"),
  ("B25041_004", "Two_Bedrooms"),
  ("B25041_005", "Three_Bedrooms"),
  ("B25041_006", "Four_Bedrooms"),
  ("B25041_007", "Five_Plus_Bedrooms"),
  ("B25053_002", "Owner_Costs_Under_300"),
  ("B25053_003", "Owner_Costs_300_599"),
  ("B25053_004", "Owner_Costs_600_999"),
  ("B25053_005", "Owner_Costs_1000_1499"),
  ("B25053_006", "Owner_Costs_1500_1999"),
  ("B25053_007", "Owner_Costs_2000_2999"),
  ("B25053_008", "Owner_Costs_3000_Plus"),
  ("B25070_007", "Rent_Burden_30_34_Pct"),
  ("B25070_008", "Rent_Burden_35_39_Pct"),
  ("B25070_009", "Rent_Burden_40_49_Pct"),
  ("B25070_010", "Rent_Burden_50_Plus_Pct"),
  ("S2503_C01_001", "S2503_Total_Occupied_Units"),
  ("S2503_C01_013", "S2503_Median_Household_Income"),
  ("S2503_C01_014", "S2503_Housing_Costs_Under_300"),
  ("S2503_C01_015", "S2503_Housing_Costs_300_499"),
  ("S2503_C01_016", "S2503_Housing_Costs_500_799"),
  ("S2503_C01_017", "S2503_Housing_Costs_800_999"),
  ("S2503_C01_018", "S2503_Housing_Costs_1000_1499"),
  ("S2503_C01_019", "S2503_Housing_Costs_1500_1999"),
  ("S2503_C01_020", "S2503_Housing_Costs_2000_2499"),
  ("S2503_C01_021", "S2503_Housing_Costs_2500_2999"),
  ("S2503_C01_022", "S2503_Housing_Costs_3000_Plus"),
  ("S2503_C01_024", "S2503_Median_Housing_Costs"),
  ("S2503_C01_028", "S2503_Cost_Burden_30_Plus_Under_20K"),
  ("S2503_C01_032", "S2503_Cost_Burden_30_Plus_20K_35K"),
  ("S2503_C01_036", "S2503_Cost_Burden_30_Plus_35K_50K"),
  ("S2503_C01_040", "S2503_Cost_Burden_30_Plus_50K_75K"),
  ("S2503_C01_044", "S2503_Cost_Burden_30_Plus_75K_Plus"),
  ("S2503_C03_001", "S2503_Total_Owner_Occupied"),
  ("S2503_C03_024", "S2503_Median_Owner_Costs"),
  ("S2503_C04_001", "S2503_Total_Renter_Occupied"),
  ("S2503_C04_024", "S2503_Median_Renter_Costs")]

/-- The dictionary built in `transform_to_wide_format` maps every base
code and every base code suffixed with `E`; no base code ends in `E`, so
looking a code up in that dictionary is looking it up directly and, when
that fails and the code ends in `E`, looking up the code with the final
`E` removed. -/
def lookupMapping (v : String) : Option String :=
  match baseMapping.lookup v with
  | some fn => some fn
  | none =>
      if v.data.getLast? == some 'E' then baseMapping.lookup (String.mk v.data.dropLast)
      else none

/-- A long row surviving the mapping filter. -/
structure MappedRow where
  geoid : String
  name : String
  fname : String
  estimate : Option ℚ
deriving DecidableEq, Repr

/-- The mapped long rows: `df["friendly_name"] = df["variable_code"].map(...)`
followed by dropping the unmapped rows. -/
def mappedRows (input : List LongRow) : List MappedRow :=
  input.filterMap (fun r =>
    (lookupMapping r.varCode).map (fun fn => MappedRow.mk r.geoid r.name fn r.estimate))

/-- The pivot's index: the distinct `(GEOID, NAME)` pairs, sorted. -/
def wideKeys (mapped : List MappedRow) : List (String × String) :=
  sortBy pairLe ((mapped.map (fun m => (m.geoid, m.name))).dedup)

/-- One pivot cell: `aggfunc="first"` takes the first non-null estimate of
the `(key, friendly_name)` group in input order. -/
def wideCell (mapped : List MappedRow) (k : String × String) (fn : String) :
    Option ℚ :=
  ((mapped.filter (fun m => m.geoid == k.1 && m.name == k.2 && m.fname == fn)).filterMap
    (fun m => m.estimate)).head?

/-- The pivot's columns: the distinct friendly names, sorted, minus those
whose aggregated values are all null (pandas' default `dropna=True`). -/
def wideFnames (mapped : List MappedRow) : List String :=
  (sortBy strLe ((mapped.map (fun m => m.fname)).dedup)).filter
    (fun fn => (wideKeys mapped).any (fun k => (wideCell mapped k fn).isSome))

/-- `transform_to_wide_format` (baton_rouge_acs_housing.py, lines
598-637): map variable codes to friendly names, drop unmapped rows, pivot
with `index=["GEOID", "NAME"]`, `columns="friendly_name"`,
`values="estimate"`, `aggfunc="first"`, then `fillna(0)`.  pandas sorts
the index pairs and the column names, takes per (key, name) group the
first non-null estimate in input order, and (with its default
`dropna=True`) omits friendly-name columns whose aggregated values are
all null; `reset_index` puts `GEOID` and `NAME` first.  One modelling
note: an index pair all of whose estimates are null is kept here as a
zero-filled row, while pandas may omit such an all-null group entirely —
a corner none of the statements below constrains (pair uniqueness,
column provenance and the concrete scenarios are identical in both
readings). -/
def transform_to_wide_format (input : List LongRow) : Table :=
  if input.isEmpty then ⟨[]⟩ else
  let mapped := mappedRows input
  if mapped.isEmpty then ⟨[]⟩ else
  ⟨("GEOID", (wideKeys mapped).map (fun k => Val.str k.1)) ::
   ("NAME", (wideKeys mapped).map (fun k => Val.str k.2)) ::
   (wideFnames mapped).map (fun fn => (fn, (wideKeys mapped).map (fun k =>
     match wideCell mapped k fn with
     | some q => Val.num q
     | none => Val.num 0)))⟩

/-! ### `collect_api_data` (baton_rouge_data_pulls.py, lines 54-123)

The endpoint is modelled as a dataset of `available` rows served in
order: a request with a given offset and `$limit=batch` returns
`min batch (available - offset)` rows.  Transport errors, which in the
source break the loop and return the rows accumulated so far, are outside
the modelled scenario. -/

structure FetchAcc where
  offset : Nat
  total : Nat
  reqs : Nat
  more : Bool
deriving DecidableEq, Repr

def pageRows (available offset limit : Nat) : Nat := min limit (available - offset)

/-- The `while more_data and total_rows < max_rows` loop.  The fuel is an
upper bound on the iteration count (each iteration that continues adds at
least one row while `total < maxRows`), not part of the source. -/
def collectLoop (available batchLimit maxRows : Nat) : Nat → FetchAcc → Nat × Nat
  | 0, s => (s.total, s.reqs)
  | fuel + 1, s =>
    if s.more && s.total < maxRows then
      let batch := min batchLimit (maxRows - s.total)
      if batch = 0 then (s.total, s.reqs)
      else
        let n := pageRows available s.offset batch
        if 0 < n then
          collectLoop available batchLimit maxRows fuel
            ⟨s.offset + batch, s.total + n, s.reqs + 1, decide (batch ≤ n)⟩
        else (s.total, s.reqs + 1)
    else (s.total, s.reqs)

/-- `collect_api_data`, returning (rows collected, requests issued). -/
def collect_api_data (available batchLimit maxRows : Nat) : Nat × Nat :=
  collectLoop available batchLimit maxRows (maxRows + 1) ⟨0, 0, 0, true⟩

/-! ### `create_summary_tables` (baton_rouge_data_pulls.py, lines 293-386)

The tract-level summary of one joined dataset:
`gdf.groupby(["tract_id", "tract_name"]).size()`.  An entity is its
assigned `(tract_id, tract_name)` pair, `none` when the spatial join left
the key null; pandas `groupby` drops null keys and sorts the remaining
ones. -/
def tract_summary (entities : List (Option (String × String))) :
    List ((String × String) × Nat) :=
  let matched := entities.filterMap id
  (sortBy pairLe matched.dedup).map (fun k => (k, matched.count k))

/-! ### `run_comprehensive_analysis`
(baton_rouge_social_isolation_framework.py, lines 233-268) -/

inductive PhaseOutcome where
  | ok
  | err (msg : String)
deriving DecidableEq, Repr

/-- One enabled source inside `_collect_all_data`: the collector body runs
in its own `try/except`; a raise is caught, logged, and an empty dataset
is stored in its place.  `Except.error` models the collector raising. -/
def collectSource {α : Type} (r : Except String (List α)) : List α :=
  match r with
  | .ok d => d
  | .error _ => []

/-- Phase 1, `_collect_all_data`: every enabled source is collected
independently; no source failure escapes the per-source handler. -/
def collect_all_data {α : Type} (sources : List (Except String (List α))) :
    List (List α) :=
  sources.map collectSource

def runPhases : List PhaseOutcome → Except String Unit
  | [] => .ok ()
  | .ok :: rest => runPhases rest
  | .err m :: _ => .error m

/-- `run_comprehensive_analysis`: the five phases run in order inside one
`try`; its `except Exception` clause prints the error and then `raise`s,
so the first exception escaping a phase propagates to the caller, and
only a fully clean pass returns the results summary.  A phase is modelled
by its outcome. -/
def run_comprehensive_analysis {α : Type} (phases : List PhaseOutcome) (summary : α) :
    Except String α :=
  match runPhases phases with
  | .ok _ => .ok summary
  | .error m => .error m

/-! ## Basic lemmas about the table model -/

namespace Table

lemma find?_map_keyfix (l : List (String × List Val)) (n : String) (vs : List Val)
    (c : String) (h : ¬(c = n)) :
    (l.map (fun p => if p.1 == n then (n, vs) else p)).find? (fun p => p.1 == c) =
      l.find? (fun p => p.1 == c) := by
  induction l with
  | nil => rfl
  | cons p rest ih =>
    rw [List.map_cons]
    by_cases hp : p.1 = n
    · have hne : ¬(n = c) := fun he => h he.symm
      rw [if_pos (by simp [hp])]
      rw [List.find?_cons_of_neg _ (by simp [hne]),
          List.find?_cons_of_neg _ (by simp [hp, hne]), ih]
    · rw [if_neg (by simp [hp])]
      by_cases hc : p.1 = c
      · rw [List.find?_cons_of_pos _ (by simp [hc]), List.find?_cons_of_pos _ (by simp [hc])]
      · rw [List.find?_cons_of_neg _ (by simp [hc]),
          List.find?_cons_of_neg _ (by simp [hc]), ih]

lemma find?_map_keyfix_self (l : List (String × List Val)) (n : String) (vs : List Val) :
    (l.find? (fun p => p.1 == n)).isSome →
    (l.map (fun p => if p.1 == n then (n, vs) else p)).find? (fun p => p.1 == n) =
      some (n, vs) := by
  induction l with
  | nil => intro hfound; simp [List.find?] at hfound
  | cons p rest ih =>
    intro hfound
    rw [List.map_cons]
    by_cases hp : p.1 = n
    · rw [if_pos (by simp [hp])]
      rw [List.find?_cons_of_pos _ (by simp)]
    · rw [if_neg (by simp [hp])]
      rw [List.find?_cons_of_neg _ (by simp [hp])]
      rw [List.find?_cons_of_neg _ (by simp [hp])] at hfound
      exact ih hfound

lemma getCol?_setCol_self (t : Table) (n : String) (vs : List Val) :
    (t.setCol n vs).getCol? n = some vs := by
  rcases t with ⟨l⟩
  show (Table.setCol ⟨l⟩ n vs).getCol? n = some vs
  unfold setCol
  by_cases h : Table.hasCol ⟨l⟩ n
  · rw [if_pos h]
    show Option.map Prod.snd
      ((l.map (fun p => if p.1 == n then (n, vs) else p)).find? (fun p => p.1 == n)) = _
    rw [find?_map_keyfix_self l n vs h]
    rfl
  · rw [if_neg h]
    have hnone : l.find? (fun p => p.1 == n) = none := by
      unfold hasCol at h
      cases hf : l.find? (fun p => p.1 == n) with
      | none => rfl
      | some p => exact absurd (by show (Option.some p).isSome; rfl) (hf ▸ h)
    show Option.map Prod.snd ((l ++ [(n, vs)]).find? (fun p => p.1 == n)) = _
    rw [List.find?_append, hnone]
    simp [List.find?]

lemma getCol?_setCol_ne (t : Table) (n : String) (vs : List Val) (c : String)
    (h : ¬(c = n)) : (t.setCol n vs).getCol? c = t.getCol? c := by
  rcases t with ⟨l⟩
  show (Table.setCol ⟨l⟩ n vs).getCol? c = _
  unfold setCol
  by_cases hh : Table.hasCol ⟨l⟩ n
  · rw [if_pos hh]
    show Option.map Prod.snd
      ((l.map (fun p => if p.1 == n then (n, vs) else p)).find? (fun p => p.1 == c)) = _
    rw [find?_map_keyfix l n vs c h]
    rfl
  · rw [if_neg hh]
    show Option.map Prod.snd ((l ++ [(n, vs)]).find? (fun p => p.1 == c)) =
      Option.map Prod.snd (l.find? (fun p => p.1 == c))
    rw [List.find?_append]
    cases hf : l.find? (fun p => p.1 == c) with
    | some p => rfl
    | none =>
      show Option.map Prod.snd (Option.none.or (List.find? (fun p => p.1 == c) [(n, vs)])) = _
      rw [List.find?_cons_of_neg _
        (by simp only [beq_iff_eq]; exact fun he => h he.symm)]
      rfl

lemma hasCol_getCol? (t : Table) (c : String) :
    t.hasCol c = (t.getCol? c).isSome := by
  unfold hasCol getCol?
  cases t.cols.find? (fun p => p.1 == c) <;> simp

lemma hasCol_setCol (t : Table) (n : String) (vs : List Val) (c : String) :
    (t.setCol n vs).hasCol c = (t.hasCol c || c == n) := by
  by_cases h : c = n
  · subst h
    rw [hasCol_getCol?, getCol?_setCol_self]
    simp
  · rw [hasCol_getCol?, getCol?_setCol_ne t n vs c h, ← hasCol_getCol?]
    have : (c == n) = false := by simp [beq_eq_false_iff_ne, h]
    simp [this]

lemma col_setCol_self (t : Table) (n : String) (vs : List Val) :
    (t.setCol n vs).col n = vs := by
  unfold col; rw [getCol?_setCol_self]; rfl

lemma map_keyfix_id (l : List (String × List Val)) (n : String) (vs : List Val)
    (h : ∀ p ∈ l, ¬(p.1 = n)) :
    l.map (fun p => if p.1 == n then (n, vs) else p) = l := by
  induction l with
  | nil => rfl
  | cons p rest ih =>
    rw [List.map_cons, if_neg (by simp only [beq_iff_eq]; exact h p (by simp)),
      ih (fun q hq => h q (by simp [hq]))]

lemma map_keyfix_noop (l : List (String × List Val)) (n : String) (vs : List Val) :
    ∀ (hv : l.find? (fun p => p.1 == n) = some (n, vs))
      (hnd : (l.map Prod.fst).Nodup),
    l.map (fun p => if p.1 == n then (n, vs) else p) = l := by
  induction l with
  | nil => intro hv _; simp [List.find?] at hv
  | cons p rest ih =>
    intro hv hnd
    rw [List.map_cons, List.nodup_cons] at hnd
    by_cases hp : p.1 = n
    · rw [List.find?_cons_of_pos _ (by simp [hp])] at hv
      have hrest : ∀ q ∈ rest, ¬(q.1 = n) := by
        intro q hq he
        exact hnd.1 (hp ▸ he ▸ (List.mem_map.mpr ⟨q, hq, rfl⟩))
      rw [List.map_cons, if_pos (by simp [hp]), map_keyfix_id rest n vs hrest,
        (Option.some.injEq _ _).mp hv]
    · rw [List.find?_cons_of_neg _ (by simp [hp])] at hv
      rw [List.map_cons, if_neg (by simp [hp]), ih hv hnd.2]

lemma setCol_noop (t : Table) (n : String) (vs : List Val)
    (hv : t.getCol? n = some vs) (hnd : t.colNames.Nodup) : t.setCol n vs = t := by
  have hfound : t.hasCol n := by rw [hasCol_getCol?, hv]; rfl
  rcases t with ⟨l⟩
  show Table.setCol ⟨l⟩ n vs = ⟨l⟩
  unfold setCol
  rw [if_pos hfound]
  have hfind : l.find? (fun p => p.1 == n) = some (n, vs) := by
    unfold getCol? at hv
    cases hf : l.find? (fun p => p.1 == n) with
    | none => rw [hf] at hv; exact absurd hv (by simp)
    | some pr =>
      rw [hf] at hv
      have h2 : pr.2 = vs := by
        simpa using hv
      have h1 : pr.1 = n := by
        have := List.find?_some hf
        simpa using this
      rw [← h1, ← h2]
  rw [Table.mk.injEq]
  exact map_keyfix_noop l n vs hfind hnd

lemma getCol?_mapVals (t : Table) (f : Val → Val) (c : String) :
    (t.mapVals f).getCol? c = (t.getCol? c).map (List.map f) := by
  rcases t with ⟨l⟩
  show Option.map Prod.snd
      ((l.map (fun p => (p.1, p.2.map f))).find? (fun p => p.1 == c)) =
    (Option.map Prod.snd (l.find? (fun p => p.1 == c))).map (List.map f)
  induction l with
  | nil => rfl
  | cons p rest ih =>
    by_cases hp : p.1 = c
    · rw [List.map_cons, List.find?_cons_of_pos _ (by simp [hp]),
        List.find?_cons_of_pos _ (by simp [hp])]
      rfl
    · rw [List.map_cons, List.find?_cons_of_neg _ (by simp [hp]),
        List.find?_cons_of_neg _ (by simp [hp])]
      exact ih

lemma hasCol_mapVals (t : Table) (f : Val → Val) (c : String) :
    (t.mapVals f).hasCol c = t.hasCol c := by
  rw [hasCol_getCol?, hasCol_getCol?, getCol?_mapVals]
  cases t.getCol? c <;> rfl

lemma map_fst_keyfix (l : List (String × List Val)) (n : String) (vs : List Val) :
    (l.map (fun p => if p.1 == n then (n, vs) else p)).map Prod.fst = l.map Prod.fst := by
  induction l with
  | nil => rfl
  | cons p rest ih =>
    by_cases hp : p.1 = n
    · rw [List.map_cons, if_pos (by simp [hp]), List.map_cons, List.map_cons, ih, hp]
    · rw [List.map_cons, if_neg (by simp [hp]), List.map_cons, List.map_cons, ih]

lemma colNames_setCol_of_has (t : Table) (n : String) (vs : List Val)
    (h : t.hasCol n = true) : (t.setCol n vs).colNames = t.colNames := by
  rcases t with ⟨l⟩
  show (Table.setCol ⟨l⟩ n vs).colNames = _
  unfold setCol
  rw [if_pos h]
  exact map_fst_keyfix l n vs

lemma colNames_setCol_of_not_has (t : Table) (n : String) (vs : List Val)
    (h : t.hasCol n = false) : (t.setCol n vs).colNames = t.colNames ++ [n] := by
  rcases t with ⟨l⟩
  show (Table.setCol ⟨l⟩ n vs).colNames = _
  unfold setCol
  rw [if_neg (by simp [h])]
  show (l ++ [(n, vs)]).map Prod.fst = _
  rw [List.map_append]
  rfl

end Table

/-! ## The paginated fetcher -/

lemma collectLoop_stopped (a b m fuel : Nat) (s : FetchAcc) (h : s.more = false) :
    collectLoop a b m fuel s = (s.total, s.reqs) := by
  cases fuel with
  | zero => rfl
  | succ f => simp [collectLoop, h]

lemma collectLoop_le (a b m : Nat) : ∀ (fuel : Nat) (s : FetchAcc),
    s.total ≤ m → (collectLoop a b m fuel s).1 ≤ m := by
  intro fuel
  induction fuel with
  | zero => intro s hs; exact hs
  | succ f ih =>
    intro s hs
    simp only [collectLoop]
    split
    · split
      · exact hs
      · split
        · apply ih
          have hpage : pageRows a s.offset (min b (m - s.total)) ≤ min b (m - s.total) :=
            Nat.min_le_left _ _
          simp only
          omega
        · exact hs
    · exact hs

lemma collectLoop_eq_min (a b m : Nat) (hb : 0 < b) : ∀ (fuel : Nat) (s : FetchAcc),
    s.more = true → s.offset = s.total → s.total ≤ a → s.total ≤ m →
    m - s.total < fuel →
    (collectLoop a b m fuel s).1 = min a m := by
  intro fuel
  induction fuel with
  | zero => intro s _ _ _ _ hfuel; omega
  | succ f ih =>
    intro s hmore hoff ha hm hfuel
    simp only [collectLoop, hmore, Bool.true_and]
    by_cases hlt : s.total < m
    · rw [if_pos (by simpa using hlt)]
      have hbatch : ¬(min b (m - s.total) = 0) := by omega
      rw [if_neg hbatch]
      have hn : pageRows a s.offset (min b (m - s.total)) =
          min (min b (m - s.total)) (a - s.total) := by
        unfold pageRows; rw [hoff]
      by_cases hpos : 0 < pageRows a s.offset (min b (m - s.total))
      · rw [if_pos hpos]
        by_cases hfull : min b (m - s.total) ≤ pageRows a s.offset (min b (m - s.total))
        · apply ih
          · simp [hfull]
          · simp only; omega
          · simp only; omega
          · simp only; omega
          · simp only; omega
        · rw [collectLoop_stopped a b m f _ (decide_eq_false hfull)]
          simp only
          omega
      · rw [if_neg hpos]
        simp only
        omega
    · rw [if_neg (by simpa using hlt)]
      simp only
      omega

/--
C5: the paginated fetcher caps its output at the configured maximum,
collects exactly `min available cap` rows whenever the page size is
positive (it stops on a short page or on reaching the cap), and the
page-size-2, cap-5 scenario against three pages of 2, 2 and 1 rows issues
exactly 3 requests for exactly 5 rows.
-/
theorem collect_api_data_spec :
    (∀ available batchLimit maxRows : Nat,
        (collect_api_data available batchLimit maxRows).1 ≤ maxRows) ∧
    (∀ available batchLimit maxRows : Nat, 0 < batchLimit →
        (collect_api_data available batchLimit maxRows).1 = min available maxRows) ∧
    collect_api_data 5 2 5 = (5, 3) := by
  refine ⟨?_, ?_, ?_⟩
  · intro a b m
    exact collectLoop_le a b m (m + 1) ⟨0, 0, 0, true⟩ (Nat.zero_le m)
  · intro a b m hb
    exact collectLoop_eq_min a b m hb (m + 1) ⟨0, 0, 0, true⟩ rfl rfl
      (Nat.zero_le a) (Nat.zero_le m) (by omega)
  · decide

/--
C5 witness: a dataset of 7 rows fetched with page size 2 and cap 5 yields
`min 7 5 = 5` rows.
-/
theorem collect_api_data_spec_witness :
    0 < 2 ∧ (collect_api_data 7 2 5).1 = min 7 5 :=
  ⟨by decide, collect_api_data_spec.2.1 7 2 5 (by decide)⟩

/-! ## The orchestrator -/

/--
C7 counterexample: a phase of `run_comprehensive_analysis` that raises is
re-raised by the orchestrator's top-level handler — the caller receives
the exception instead of a results summary, contrary to the claim that a
phase failure is never propagated.
-/
theorem run_comprehensive_analysis_cex :
    run_comprehensive_analysis [PhaseOutcome.err "spatial analysis failed"] (0 : Nat) =
      Except.error "spatial analysis failed" := rfl

/--
C7 (amended): a failing data source inside the collection phase is caught
by its per-source handler and recorded as an empty dataset, never
propagated; but an exception escaping one of the five phase bodies is
re-raised by `run_comprehensive_analysis` to its caller after logging.
-/
theorem run_comprehensive_analysis_amended :
    (∀ (sources : List (Except String (List Nat))) (i : Nat) (msg : String),
        sources[i]? = some (Except.error msg) →
        (collect_all_data sources)[i]? = some []) ∧
    (∀ (phases : List PhaseOutcome) (summary : Nat) (msg : String),
        PhaseOutcome.err msg ∈ phases →
        ∃ m2, run_comprehensive_analysis phases summary = Except.error m2) := by
  constructor
  · intro sources i msg hi
    unfold collect_all_data
    rw [List.getElem?_map, hi]
    rfl
  · intro phases summary msg hmem
    induction phases with
    | nil => cases hmem
    | cons p rest ih =>
      cases p with
      | ok =>
        have hrest : PhaseOutcome.err msg ∈ rest := by
          rcases List.mem_cons.mp hmem with h | h
          · cases h
          · exact h
        obtain ⟨m2, hm2⟩ := ih hrest
        refine ⟨m2, ?_⟩
        simpa [run_comprehensive_analysis, runPhases] using hm2
      | err m0 =>
        exact ⟨m0, by simp [run_comprehensive_analysis, runPhases]⟩

/--
C7 witness: one failed source is recorded as an empty dataset; one failed
phase yields an error result to the caller.
-/
theorem run_comprehensive_analysis_amended_witness :
    (([Except.error "census timeout"] : List (Except String (List Nat)))[0]? =
        some (Except.error "census timeout") ∧
      (collect_all_data ([Except.error "census timeout"] :
        List (Except String (List Nat))))[0]? = some []) ∧
    (PhaseOutcome.err "io error" ∈ [PhaseOutcome.err "io error"] ∧
      ∃ m2, run_comprehensive_analysis [PhaseOutcome.err "io error"] (0 : Nat) =
        Except.error m2) :=
  ⟨⟨rfl, run_comprehensive_analysis_amended.1 _ 0 _ rfl⟩,
   ⟨by simp, run_comprehensive_analysis_amended.2 _ 0 "io error" (by simp)⟩⟩

/-! ## The aggregator -/

/--
C9 counterexample: an entity whose assigned geography key is null leaves
no trace at all in the tract summary — the output for a matched entity
plus an unmatched one is identical to the output for the matched entity
alone, and contains only the per-key count; nothing reports the unmatched
entity, contrary to the claim.
-/
theorem tract_summary_cex :
    tract_summary [some ("22033000100", "Census Tract 1"), none] =
        tract_summary [some ("22033000100", "Census Tract 1")] ∧
    tract_summary [some ("22033000100", "Census Tract 1"), none] =
      [(("22033000100", "Census Tract 1"), 1)] := by
  constructor <;> decide

/--
C9 (amended): the per-geography summary counts exclude null-keyed
entities, and those unmatched entities are silently dropped — the summary
of any entity set equals the summary of its non-null entities alone, and
every reported count is the count of matched entities for that key.
-/
theorem tract_summary_amended :
    (∀ entities : List (Option (String × String)),
        tract_summary entities = tract_summary ((entities.filterMap id).map some)) ∧
    (∀ (entities : List (Option (String × String)))
        (kn : (String × String) × Nat), kn ∈ tract_summary entities →
        kn.2 = (entities.filterMap id).count kn.1) := by
  constructor
  · intro es
    unfold tract_summary
    have : ((es.filterMap id).map some).filterMap id = es.filterMap id := by
      rw [List.filterMap_map]
      simpa using List.filterMap_some (es.filterMap id)
    rw [this]
  · intro es kn hkn
    unfold tract_summary at hkn
    obtain ⟨k, _, hk⟩ := List.mem_map.mp hkn
    rw [← hk]

/--
C9 witness: two matched entities on the same tract and one unmatched
entity produce the single count 2.
-/
theorem tract_summary_amended_witness :
    tract_summary [some ("22033000100", "Census Tract 1"), none,
        some ("22033000100", "Census Tract 1")] =
      tract_summary (((([some ("22033000100", "Census Tract 1"), none,
        some ("22033000100", "Census Tract 1")]).filterMap id)).map some) ∧
    ((("22033000100", "Census Tract 1"), 2) ∈
        tract_summary [some ("22033000100", "Census Tract 1"), none,
          some ("22033000100", "Census Tract 1")] ∧
      ((("22033000100", "Census Tract 1"), 2) :
          (String × String) × Nat).2 =
        (([some ("22033000100", "Census Tract 1"), none,
          some ("22033000100", "Census Tract 1")].filterMap id)).count
          ("22033000100", "Census Tract 1")) :=
  ⟨tract_summary_amended.1 _,
   by decide,
   tract_summary_amended.2 _ _ (by decide)⟩

/-! ## The derived-indicator percentages (C1) -/

/--
C1 counterexample: the analyzer's `Renter_Rate` has no zero-denominator
guard — on a row with `Renter_Occupied = 0` and `Occupied_Units = 0` (an
empty tract) it is NaN, not 0, contrary to the claim that every derived
percentage indicator is 0 whenever its denominator is ≤ 0 and never NaN.
-/
theorem renter_rate_nan_cex :
    (calculate_housing_quality_indicators
        ⟨[("Renter_Occupied", [Val.num 0]), ("Occupied_Units", [Val.num 0])]⟩).getCol?
      "Renter_Rate" = some [Val.nan] := by decide

/--
C1 (amended): for the `safe_divide` indicators of
`calculate_derived_indicators` the value is exactly 0 whenever the
denominator is ≤ 0, equals `num/den*100` — lying in [0, 100] — whenever
the denominator is positive and `0 ≤ num ≤ den`, and the output table of
`calculate_derived_indicators` never contains NaN or ±inf in any cell;
the analyzer's `Renter_Rate` and `Housing_Vacancy_Rate` are not so
guarded, and `Renter_Rate` is NaN where `Occupied_Units = 0`.
-/
theorem safe_divide_spec :
    (∀ (v : Val) (q : ℚ), q ≤ 0 → safe_divide v (Val.num q) = Val.num 0) ∧
    (∀ p r : ℚ, 0 < r → 0 ≤ p → p ≤ r →
        safe_divide (Val.num p) (Val.num r) = Val.num (p / r * 100) ∧
        0 ≤ p / r * 100 ∧ p / r * 100 ≤ 100) ∧
    (∀ (t : Table) (c : String) (vs : List Val) (v : Val),
        (calculate_derived_indicators t).getCol? c = some vs → v ∈ vs →
        v ≠ Val.nan ∧ v ≠ Val.pinf ∧ v ≠ Val.ninf) := by
  refine ⟨?_, ?_, ?_⟩
  · intro v q hq
    simp [safe_divide, Val.gtZero, show ¬(0 < q) from not_lt.mpr hq]
  · intro p r hr hp hpr
    refine ⟨?_, ?_, ?_⟩
    · simp [safe_divide, Val.gtZero, hr, Val.notna, Val.vdiv, Val.vmul, ne_of_gt hr]
    · positivity
    · have h1 : p / r ≤ 1 := (div_le_one hr).mpr hpr
      nlinarith
  · intro t c vs v hvs hv
    unfold calculate_derived_indicators at hvs
    rw [Table.getCol?_mapVals] at hvs
    cases hg : (runBlocks derivedBlocks t).getCol? c with
    | none => rw [hg] at hvs; exact absurd hvs (by simp)
    | some ws =>
      rw [hg] at hvs
      have hvs' : vs = ws.map Val.clean := by simpa using hvs.symm
      subst hvs'
      obtain ⟨u, _, hu⟩ := List.mem_map.mp hv
      rw [← hu]
      cases u <;> simp [Val.clean]

/--
C1 witness: denominator -3 yields exactly 0; 300 of 1000 yields 30.0,
inside [0, 100]; the cleaned output of the calculator on a one-column
table contains no NaN and no ±inf.
-/
theorem safe_divide_spec_witness :
    ((-3 : ℚ) ≤ 0 ∧ safe_divide (Val.num 7) (Val.num (-3)) = Val.num 0) ∧
    ((0 : ℚ) < 1000 ∧ (0 : ℚ) ≤ 300 ∧ (300 : ℚ) ≤ 1000 ∧
      safe_divide (Val.num 300) (Val.num 1000) = Val.num (300 / 1000 * 100) ∧
      0 ≤ (300 : ℚ) / 1000 * 100 ∧ (300 : ℚ) / 1000 * 100 ≤ 100) ∧
    ((calculate_derived_indicators ⟨[("Total_Population", [Val.nan])]⟩).getCol?
        "Total_Population" = some [Val.num 0] ∧
      Val.num 0 ∈ [Val.num 0] ∧
      Val.num 0 ≠ Val.nan ∧ Val.num 0 ≠ Val.pinf ∧ Val.num 0 ≠ Val.ninf) := by
  refine ⟨⟨by norm_num, safe_divide_spec.1 (Val.num 7) (-3) (by norm_num)⟩,
          ⟨by norm_num, by norm_num, by norm_num, ?_⟩, ⟨?_, ?_⟩⟩
  · exact safe_divide_spec.2.1 300 1000 (by norm_num) (by norm_num) (by norm_num)
  · decide
  · refine ⟨by decide,
      safe_divide_spec.2.2 ⟨[("Total_Population", [Val.nan])]⟩ "Total_Population"
        [Val.num 0] (Val.num 0) ?_ (by decide)⟩
    decide

/-! ## Missing source columns (C2) -/

/--
C2 counterexample: the analyzer adds `Old_Housing_Rate` to a table that
has only the single member column `Built_1939_Earlier` and lacks both the
other old-housing member columns and the denominator column
`Total_Housing_Units` (which silently defaults to the scalar 1), contrary
to the claim that an indicator is not added when any required source
column is absent.
-/
theorem old_housing_rate_cex :
    (⟨[("Built_1939_Earlier", [Val.num 2])]⟩ : Table).hasCol "Total_Housing_Units" = false ∧
    (calculate_housing_quality_indicators
        ⟨[("Built_1939_Earlier", [Val.num 2])]⟩).hasCol "Old_Housing_Rate" = true := by
  constructor <;> decide

lemma getCol?_runOuts_of_not_written (outs : List (String × OutExpr)) (c : String)
    (hc : c ∉ writesOfOuts outs) :
    ∀ t : Table, (runOuts outs t).getCol? c = t.getCol? c := by
  induction outs with
  | nil => intro t; rfl
  | cons o rest ih =>
    intro t
    have hco : ¬(c = o.1) := fun he =>
      hc (by rw [he]; exact List.mem_cons_self _ _)
    show (runOuts rest (t.setCol o.1 (o.2.eval t))).getCol? c = _
    rw [ih (fun hm => hc (List.mem_cons_of_mem _ hm)),
      Table.getCol?_setCol_ne t o.1 _ c hco]

lemma hasCol_runOuts_of_not_written (outs : List (String × OutExpr)) (c : String)
    (hc : c ∉ writesOfOuts outs) (t : Table) :
    (runOuts outs t).hasCol c = t.hasCol c := by
  rw [Table.hasCol_getCol?, Table.hasCol_getCol?, getCol?_runOuts_of_not_written outs c hc t]

lemma getCol?_runBlock_of_not_written (b : Block) (c : String)
    (hc : c ∉ writesOfBlock b) (t : Table) :
    (runBlock b t).getCol? c = t.getCol? c := by
  unfold runBlock
  split
  · exact getCol?_runOuts_of_not_written b.outs c hc t
  · rfl

lemma getCol?_runBlocks_of_not_written (bs : List Block) (c : String)
    (hc : ∀ b ∈ bs, c ∉ writesOfBlock b) :
    ∀ t : Table, (runBlocks bs t).getCol? c = t.getCol? c := by
  induction bs with
  | nil => intro t; rfl
  | cons b rest ih =>
    intro t
    show (runBlocks rest (runBlock b t)).getCol? c = _
    rw [ih (fun b' hb' => hc b' (List.mem_cons_of_mem _ hb')),
      getCol?_runBlock_of_not_written b c (hc b (List.mem_cons_self _ _)) t]

lemma hasCol_runBlocks_guarded (bs : List Block) (c g : String)
    (hc : ∀ b ∈ bs, c ∈ writesOfBlock b → g ∈ b.guardCols)
    (hg : ∀ b ∈ bs, g ∉ writesOfBlock b) :
    ∀ t : Table, t.hasCol c = false → t.hasCol g = false →
      (runBlocks bs t).hasCol c = false ∧ (runBlocks bs t).hasCol g = false := by
  induction bs with
  | nil => intro t h1 h2; exact ⟨h1, h2⟩
  | cons b rest ih =>
    intro t h1 h2
    have hstep : (runBlock b t).hasCol c = false ∧ (runBlock b t).hasCol g = false := by
      unfold runBlock
      split
      · next hguard =>
        have hcnotw : c ∉ writesOfBlock b := by
          intro hw
          have hgin := hc b (List.mem_cons_self _ _) hw
          have habs : t.hasCol g = true := List.all_eq_true.mp hguard g hgin
          rw [h2] at habs
          cases habs
        exact ⟨by rw [hasCol_runOuts_of_not_written _ _ hcnotw]; exact h1,
               by rw [hasCol_runOuts_of_not_written _ _ (hg b (List.mem_cons_self _ _))];
                  exact h2⟩
      · exact ⟨h1, h2⟩
    exact ih (fun b' hb' => hc b' (List.mem_cons_of_mem _ hb'))
      (fun b' hb' => hg b' (List.mem_cons_of_mem _ hb')) _ hstep.1 hstep.2

lemma mem_writesOfBlocks {c : String} {bs : List Block} :
    c ∈ writesOfBlocks bs ↔ ∃ b ∈ bs, c ∈ writesOfBlock b := by
  unfold writesOfBlocks
  rw [List.mem_flatten]
  constructor
  · intro ⟨l, hl, hcl⟩
    obtain ⟨b, hb, he⟩ := List.mem_map.mp hl
    exact ⟨b, hb, he ▸ hcl⟩
  · intro ⟨b, hb, hcb⟩
    exact ⟨writesOfBlock b, List.mem_map.mpr ⟨b, hb, rfl⟩, hcb⟩

/-- With duplicate-free writes across the chain, the block writing an
indicator is the only one that writes it, so a guard of that block guards
every writer of the indicator. -/
lemma writer_guards_of_nodup :
    ∀ (bs : List Block), (writesOfBlocks bs).Nodup →
    ∀ b ∈ bs, ∀ (c g : String), c ∈ writesOfBlock b → g ∈ b.guardCols →
    ∀ b' ∈ bs, c ∈ writesOfBlock b' → g ∈ b'.guardCols := by
  intro bs
  induction bs with
  | nil =>
    intro _ b hb
    cases hb
  | cons b0 rest ih =>
    intro hnd b hb c g hcw hg b' hb' hcw'
    have hsplit : writesOfBlocks (b0 :: rest) =
        writesOfBlock b0 ++ writesOfBlocks rest := rfl
    rw [hsplit, List.nodup_append] at hnd
    rcases List.mem_cons.mp hb with rfl | hbr
    · rcases List.mem_cons.mp hb' with rfl | hb'r
      · exact hg
      · exact absurd (mem_writesOfBlocks.mpr ⟨b', hb'r, hcw'⟩) (hnd.2.2 hcw)
    · rcases List.mem_cons.mp hb' with rfl | hb'r
      · exact absurd (mem_writesOfBlocks.mpr ⟨b, hbr, hcw⟩) (hnd.2.2 hcw')
      · exact ih hnd.2.1 b hbr c g hcw hg b' hb'r hcw'

/--
C2 (amended): in `calculate_derived_indicators` every indicator is
guarded by the presence of all its required source columns and skipped —
without error, the function being total — when any is absent: (1) every
block of the chain whose presence test fails leaves the frame completely
unchanged (nothing added, nothing null- or zero-filled); (2) for every
indicator of every block and every required source column of that block
that no block of the chain derives, a table lacking both never gains the
indicator; (3) a table missing `Total_Occupied_Units` gains neither
`Percent_Owner_Occupied` nor `Percent_Renter_Occupied`, and (4) the
group-sum indicator `Low_Income_Under_35K` is not added when the member
column `Income_Under_10K` is missing.  In the analyzer's
`calculate_housing_quality_indicators`, however, only the numerator
columns are required: the denominator defaults to the scalar 1 via
`df.get`, so for example `Old_Housing_Rate` is added even when
`Total_Housing_Units` is absent.
-/
theorem derived_missing_source_spec :
    (∀ b ∈ derivedBlocks, ∀ t : Table,
        b.guardCols.all t.hasCol = false → runBlock b t = t) ∧
    (∀ (t : Table), ∀ b ∈ derivedBlocks,
        ∀ c ∈ writesOfBlock b, ∀ g ∈ b.guardCols,
        (∀ b' ∈ derivedBlocks, g ∉ writesOfBlock b') →
        t.hasCol c = false → t.hasCol g = false →
        (calculate_derived_indicators t).hasCol c = false) ∧
    (∀ t : Table, t.hasCol "Total_Occupied_Units" = false →
        t.hasCol "Percent_Owner_Occupied" = false →
        t.hasCol "Percent_Renter_Occupied" = false →
        (calculate_derived_indicators t).hasCol "Percent_Owner_Occupied" = false ∧
        (calculate_derived_indicators t).hasCol "Percent_Renter_Occupied" = false) ∧
    (∀ t : Table, t.hasCol "Income_Under_10K" = false →
        t.hasCol "Low_Income_Under_35K" = false →
        (calculate_derived_indicators t).hasCol "Low_Income_Under_35K" = false) := by
  refine ⟨?_, ?_, ?_, ?_⟩
  · intro b _ t hguard
    unfold runBlock
    rw [hguard, if_neg Bool.false_ne_true]
  · intro t b hb c hcw g hg hgnw hcabs hgabs
    unfold calculate_derived_indicators
    rw [Table.hasCol_mapVals]
    exact (hasCol_runBlocks_guarded derivedBlocks c g
      (writer_guards_of_nodup derivedBlocks (by decide) b hb c g hcw hg)
      hgnw t hcabs hgabs).1
  · intro t h1 h2 h3
    unfold calculate_derived_indicators
    rw [Table.hasCol_mapVals, Table.hasCol_mapVals]
    exact ⟨(hasCol_runBlocks_guarded derivedBlocks "Percent_Owner_Occupied"
      "Total_Occupied_Units" (by decide) (by decide) t h2 h1).1,
      (hasCol_runBlocks_guarded derivedBlocks "Percent_Renter_Occupied"
      "Total_Occupied_Units" (by decide) (by decide) t h3 h1).1⟩
  · intro t h1 h2
    unfold calculate_derived_indicators
    rw [Table.hasCol_mapVals]
    exact (hasCol_runBlocks_guarded derivedBlocks "Low_Income_Under_35K"
      "Income_Under_10K" (by decide) (by decide) t h2 h1).1

/--
C2 witness: on a table holding only a `GEOID` column, the tenure block
(whose presence test fails) leaves the frame unchanged; the old-housing
indicator `Percent_Built_Pre_1980` (guarded by the underived source
`Total_Housing_Units`) is not added; and none of
`Percent_Owner_Occupied`, `Percent_Renter_Occupied`,
`Low_Income_Under_35K` appears.
-/
theorem derived_missing_source_spec_witness :
    runBlock (derivedBlocks.get ⟨15, by decide⟩)
        ⟨[("GEOID", [Val.str "22033000100"])]⟩ =
      ⟨[("GEOID", [Val.str "22033000100"])]⟩ ∧
    (calculate_derived_indicators
        ⟨[("GEOID", [Val.str "22033000100"])]⟩).hasCol
        "Percent_Built_Pre_1980" = false ∧
    ((⟨[("GEOID", [Val.str "22033000100"])]⟩ : Table).hasCol "Total_Occupied_Units" = false ∧
      (calculate_derived_indicators
        ⟨[("GEOID", [Val.str "22033000100"])]⟩).hasCol "Percent_Owner_Occupied" = false ∧
      (calculate_derived_indicators
        ⟨[("GEOID", [Val.str "22033000100"])]⟩).hasCol "Percent_Renter_Occupied" = false) ∧
    (calculate_derived_indicators
        ⟨[("GEOID", [Val.str "22033000100"])]⟩).hasCol "Low_Income_Under_35K" = false :=
  ⟨derived_missing_source_spec.1 (derivedBlocks.get ⟨15, by decide⟩)
      (derivedBlocks.get_mem _ _) ⟨[("GEOID", [Val.str "22033000100"])]⟩ (by decide),
   derived_missing_source_spec.2.1 ⟨[("GEOID", [Val.str "22033000100"])]⟩
      (derivedBlocks.get ⟨19, by decide⟩) (derivedBlocks.get_mem _ _)
      "Percent_Built_Pre_1980" (by decide) "Total_Housing_Units" (by decide)
      (by decide) (by decide) (by decide),
   ⟨by decide,
    (derived_missing_source_spec.2.2.1 ⟨[("GEOID", [Val.str "22033000100"])]⟩
      (by decide) (by decide) (by decide)).1,
    (derived_missing_source_spec.2.2.1 ⟨[("GEOID", [Val.str "22033000100"])]⟩
      (by decide) (by decide) (by decide)).2⟩,
   derived_missing_source_spec.2.2.2 ⟨[("GEOID", [Val.str "22033000100"])]⟩
      (by decide) (by decide)⟩

/-! ## Idempotence of the derived-indicator calculator (C3) -/

/--
C3 counterexample: the derived-indicator calculator is not idempotent on
a wide table with a NaN source cell — the final
`replace([inf,-inf,nan], 0)` rewrites the source, so the second run
computes a different `Percent_Children_Single_Parent`.
-/
theorem calculate_derived_indicators_not_idempotent_cex :
    calculate_derived_indicators (calculate_derived_indicators nanSingleParentTable) ≠
      calculate_derived_indicators nanSingleParentTable := by
  intro h
  have h1 : (calculate_derived_indicators
      (calculate_derived_indicators nanSingleParentTable)).getCol?
        "Percent_Children_Single_Parent" = some [Val.num 50] := by
    set_option maxRecDepth 4000 in
    norm_num [calculate_derived_indicators, runBlocks, derivedBlocks, runBlock, runOuts,
      OutExpr.eval, NumExpr.eval, seriesSafeDiv, safe_divide, rowSumSkipNa,
      Table.setCol, Table.getCol?, Table.hasCol, Table.col, Table.mapVals, Table.nrows,
      Val.vadd, Val.vdiv, Val.vmul, Val.gtZero, Val.notna, Val.clean,
      incomeCols, middleIncomeCols, highIncomeCols, childPovertyCols, multiFamilyCols,
      newHousingCols, oldHousingCols, bedroomCols, rentBurdenCols, nanSingleParentTable,
      List.zipWith, List.foldl, List.find?, List.all, List.range, List.filter]
    exact ⟨"Percent_Children_Single_Parent", by decide⟩
  have h2 : (calculate_derived_indicators nanSingleParentTable).getCol?
      "Percent_Children_Single_Parent" = some [Val.num 0] := by decide
  rw [h, h2] at h1
  have h3 : (0 : ℚ) = 50 := by
    have := (Option.some.injEq _ _).mp h1
    have h4 := (List.cons.injEq _ _ _ _).mp this
    exact (Val.num.injEq _ _).mp h4.1
  norm_num at h3

namespace Table

lemma mem_colNames_iff_hasCol (t : Table) (c : String) :
    c ∈ t.colNames ↔ t.hasCol c = true := by
  unfold colNames hasCol
  rw [List.find?_isSome]
  constructor
  · intro hm
    obtain ⟨p, hp, he⟩ := List.mem_map.mp hm
    exact ⟨p, hp, by simp [he]⟩
  · intro ⟨p, hp, he⟩
    exact List.mem_map.mpr ⟨p, hp, by simpa using he⟩

lemma setCol_ne_nil (t : Table) (n : String) (vs : List Val) :
    (t.setCol n vs).cols ≠ [] := by
  unfold setCol
  split
  · next h =>
    rcases t with ⟨l⟩
    cases l with
    | nil => simp [hasCol, List.find?] at h
    | cons p rest => simp
  · simp

lemma nrows_of_rect (t : Table) (n : Nat) (h1 : t.cols ≠ []) (h2 : t.rect n) :
    t.nrows = n := by
  rcases t with ⟨l⟩
  cases l with
  | nil => exact absurd rfl h1
  | cons p rest => exact h2 p (List.mem_cons_self _ _)

lemma col_length_of_rect (t : Table) (n : Nat) (c : String) (h2 : t.rect n)
    (hc : t.hasCol c = true) : (t.col c).length = n := by
  unfold col getCol?
  unfold hasCol at hc
  cases hf : t.cols.find? (fun p => p.1 == c) with
  | none => rw [hf] at hc; simp at hc
  | some pr =>
    have hmem := List.mem_of_find?_eq_some hf
    simpa using h2 pr hmem

lemma col_length_any (t : Table) (n : Nat) (c : String) (hne : t.cols ≠ [])
    (h2 : t.rect n) : (t.col c).length = n := by
  unfold col getCol?
  cases hf : t.cols.find? (fun p => p.1 == c) with
  | none =>
    show (List.replicate t.nrows Val.nan).length = n
    rw [List.length_replicate]
    exact nrows_of_rect t n hne h2
  | some pr =>
    have hmem := List.mem_of_find?_eq_some hf
    simpa using h2 pr hmem

lemma setCol_rect (t : Table) (n : Nat) (nm : String) (vs : List Val)
    (h : t.rect n) (hv : vs.length = n) : (t.setCol nm vs).rect n := by
  unfold setCol
  split
  · intro p hp
    obtain ⟨q, hq, he⟩ := List.mem_map.mp hp
    by_cases hq1 : q.1 = nm
    · rw [if_pos (by simp [hq1])] at he
      rw [← he]
      exact hv
    · rw [if_neg (by simp [hq1])] at he
      rw [← he]
      exact h q hq
  · intro p hp
    rcases List.mem_append.mp hp with hl | hr
    · exact h p hl
    · rw [List.mem_singleton.mp hr]
      exact hv

lemma setCol_nodup (t : Table) (nm : String) (vs : List Val)
    (h : t.colNames.Nodup) : (t.setCol nm vs).colNames.Nodup := by
  by_cases hh : t.hasCol nm = true
  · rw [colNames_setCol_of_has t nm vs hh]
    exact h
  · rw [colNames_setCol_of_not_has t nm vs (by simpa using hh)]
    rw [List.nodup_append]
    refine ⟨h, List.nodup_singleton _, ?_⟩
    intro a ha hb
    rw [List.mem_singleton.mp hb] at ha
    exact hh ((mem_colNames_iff_hasCol t nm).mp ha)

lemma hasCol_setCol_of_has (t : Table) (nm : String) (vs : List Val) (c : String)
    (h : t.hasCol c = true) : (t.setCol nm vs).hasCol c = true := by
  rw [hasCol_setCol, h]
  rfl

end Table

lemma numExpr_eval_length (e : NumExpr) (t : Table) (n : Nat) (h2 : t.rect n)
    (hne : t.cols ≠ []) : (e.eval t).length = n := by
  cases e with
  | colE nm => exact Table.col_length_any t n nm hne h2
  | sumE ns =>
    show (rowSumSkipNa (ns.map t.col) t.nrows).length = n
    unfold rowSumSkipNa
    rw [List.length_map, List.length_range]
    exact Table.nrows_of_rect t n hne h2
  | add2 a b =>
    show (List.zipWith Val.vadd (t.col a) (t.col b)).length = n
    rw [List.length_zipWith, Table.col_length_any t n a hne h2,
      Table.col_length_any t n b hne h2]
    exact Nat.min_self n

lemma outExpr_eval_length (o : OutExpr) (t : Table) (n : Nat) (h2 : t.rect n)
    (hne : t.cols ≠ []) : (o.eval t).length = n := by
  cases o with
  | sdiv e d =>
    show (List.zipWith safe_divide (e.eval t) (t.col d)).length = n
    rw [List.length_zipWith, numExpr_eval_length e t n h2 hne,
      Table.col_length_any t n d hne h2]
    exact Nat.min_self n
  | rsum ns =>
    show (rowSumSkipNa (ns.map t.col) t.nrows).length = n
    unfold rowSumSkipNa
    rw [List.length_map, List.length_range]
    exact Table.nrows_of_rect t n hne h2
  | copy nm => exact Table.col_length_any t n nm hne h2

lemma numExpr_eval_congr (e : NumExpr) (t1 t2 : Table) (hn : t1.nrows = t2.nrows)
    (h : ∀ c ∈ e.reads, t1.col c = t2.col c) : e.eval t1 = e.eval t2 := by
  cases e with
  | colE nm => exact h nm (by simp [NumExpr.reads])
  | sumE ns =>
    show rowSumSkipNa (ns.map t1.col) t1.nrows = rowSumSkipNa (ns.map t2.col) t2.nrows
    rw [hn, List.map_congr_left (fun c hc => h c (by simpa [NumExpr.reads] using hc))]
  | add2 a b =>
    show List.zipWith Val.vadd (t1.col a) (t1.col b) = _
    rw [h a (by simp [NumExpr.reads]), h b (by simp [NumExpr.reads])]
    rfl

lemma outExpr_eval_congr (o : OutExpr) (t1 t2 : Table) (hn : t1.nrows = t2.nrows)
    (h : ∀ c ∈ o.reads, t1.col c = t2.col c) : o.eval t1 = o.eval t2 := by
  cases o with
  | sdiv e d =>
    show List.zipWith safe_divide (e.eval t1) (t1.col d) = _
    rw [numExpr_eval_congr e t1 t2 hn (fun c hc => h c (by simp [OutExpr.reads, hc])),
      h d (by simp [OutExpr.reads])]
    rfl
  | rsum ns =>
    show rowSumSkipNa (ns.map t1.col) t1.nrows = rowSumSkipNa (ns.map t2.col) t2.nrows
    rw [hn, List.map_congr_left (fun c hc => h c (by simpa [OutExpr.reads] using hc))]
  | copy nm => exact h nm (by simp [OutExpr.reads])

lemma runOuts_struct (n : Nat) :
    ∀ (outs : List (String × OutExpr)) (t : Table),
    t.cols ≠ [] → t.rect n → t.colNames.Nodup →
    (runOuts outs t).cols ≠ [] ∧ (runOuts outs t).rect n ∧
      (runOuts outs t).colNames.Nodup ∧
      (∀ c, t.hasCol c = true → (runOuts outs t).hasCol c = true) := by
  intro outs
  induction outs with
  | nil => intro t h1 h2 h3; exact ⟨h1, h2, h3, fun c hc => hc⟩
  | cons o rest ih =>
    intro t h1 h2 h3
    have hlen : (o.2.eval t).length = n := outExpr_eval_length o.2 t n h2 h1
    have hstep := ih (t.setCol o.1 (o.2.eval t))
      (Table.setCol_ne_nil t o.1 _)
      (Table.setCol_rect t n o.1 _ h2 hlen)
      (Table.setCol_nodup t o.1 _ h3)
    refine ⟨hstep.1, hstep.2.1, hstep.2.2.1, ?_⟩
    intro c hc
    exact hstep.2.2.2 c (Table.hasCol_setCol_of_has t o.1 _ c hc)

lemma runBlock_struct (b : Block) (t : Table) (n : Nat)
    (h1 : t.cols ≠ []) (h2 : t.rect n) (h3 : t.colNames.Nodup) :
    (runBlock b t).cols ≠ [] ∧ (runBlock b t).rect n ∧
      (runBlock b t).colNames.Nodup ∧
      (∀ c, t.hasCol c = true → (runBlock b t).hasCol c = true) := by
  unfold runBlock
  split
  · exact runOuts_struct n b.outs t h1 h2 h3
  · exact ⟨h1, h2, h3, fun c hc => hc⟩

lemma runBlocks_struct (n : Nat) :
    ∀ (bs : List Block) (t : Table),
    t.cols ≠ [] → t.rect n → t.colNames.Nodup →
    (runBlocks bs t).cols ≠ [] ∧ (runBlocks bs t).rect n ∧
      (runBlocks bs t).colNames.Nodup := by
  intro bs
  induction bs with
  | nil => intro t h1 h2 h3; exact ⟨h1, h2, h3⟩
  | cons b rest ih =>
    intro t h1 h2 h3
    have hstep := runBlock_struct b t n h1 h2 h3
    exact ih (runBlock b t) hstep.1 hstep.2.1 hstep.2.2.1

lemma runBlocks_empty (bs : List Block) (hne : blocksNonempty bs = true) :
    runBlocks bs (⟨[]⟩ : Table) = ⟨[]⟩ := by
  induction bs with
  | nil => rfl
  | cons b rest ih =>
    rw [blocksNonempty, List.all_cons, Bool.and_eq_true] at hne
    show runBlocks rest (runBlock b ⟨[]⟩) = ⟨[]⟩
    have hb : runBlock b ⟨[]⟩ = ⟨[]⟩ := by
      unfold runBlock
      rw [if_neg]
      intro hall
      cases hg : b.guardCols with
      | nil => rw [hg] at hne; simp [List.isEmpty] at hne
      | cons g rest2 =>
        rw [hg] at hall
        have := List.all_eq_true.mp hall g (List.mem_cons_self _ _)
        simp [Table.hasCol, List.find?] at this
    rw [hb]
    exact ih (by rw [blocksNonempty]; exact hne.2)

lemma all_hasCol_congr (cols : List String) (t1 t2 : Table)
    (h : ∀ c ∈ cols, t1.hasCol c = t2.hasCol c) :
    cols.all t1.hasCol = cols.all t2.hasCol := by
  induction cols with
  | nil => rfl
  | cons c rest ih =>
    rw [List.all_cons, List.all_cons, h c (List.mem_cons_self _ _),
      ih (fun c' hc' => h c' (List.mem_cons_of_mem _ hc'))]

lemma hasCol_runBlock_of_not_written (b : Block) (c : String)
    (hc : c ∉ writesOfBlock b) (t : Table) :
    (runBlock b t).hasCol c = t.hasCol c := by
  rw [Table.hasCol_getCol?, Table.hasCol_getCol?, getCol?_runBlock_of_not_written b c hc t]

lemma hasCol_runBlocks_of_not_written (bs : List Block) (c : String)
    (hc : ∀ b ∈ bs, c ∉ writesOfBlock b) (t : Table) :
    (runBlocks bs t).hasCol c = t.hasCol c := by
  rw [Table.hasCol_getCol?, Table.hasCol_getCol?, getCol?_runBlocks_of_not_written bs c hc t]

lemma contains_false_split {l1 l2 : List String} {c : String}
    (h : (l1 ++ l2).contains c = false) : c ∉ l1 ∧ c ∉ l2 := by
  have hnm : c ∉ l1 ++ l2 := by
    intro hm
    have h2 : (l1 ++ l2).contains c = true := by simpa using hm
    rw [h] at h2
    cases h2
  exact ⟨fun hx => hnm (List.mem_append.mpr (Or.inl hx)),
         fun hx => hnm (List.mem_append.mpr (Or.inr hx))⟩

lemma runBlock_eqn (b : Block) (t : Table) :
    runBlock b t = if b.guardCols.all t.hasCol = true then runOuts b.outs t else t := rfl

/-- Replaying a block's assignments on the final table of a run is the
identity: each target already holds exactly the value the replay
computes, because nothing written afterwards touches the assignment's
reads or its target.  `g` abstracts the rest of the run after this
block's assignments; `later` is the set of columns `g` may write. -/
lemma runOuts_fix (later : List String) (g : Table → Table) (n : Nat)
    (hg : ∀ (x : Table) (c : String), c ∉ later → (g x).getCol? c = x.getCol? c)
    (hgs : ∀ x : Table, x.cols ≠ [] → x.rect n → x.colNames.Nodup →
      ((g x).cols ≠ [] ∧ (g x).rect n ∧ (g x).colNames.Nodup)) :
    ∀ (outs : List (String × OutExpr)) (t : Table),
    outsOK outs later = true →
    t.cols ≠ [] → t.rect n → t.colNames.Nodup →
    runOuts outs (g (runOuts outs t)) = g (runOuts outs t) := by
  intro outs
  induction outs with
  | nil => intro t _ _ _ _; rfl
  | cons o rest ih =>
    intro t hOK h1 h2 h3
    rw [outsOK, Bool.and_eq_true, Bool.and_eq_true, Bool.and_eq_true] at hOK
    obtain ⟨⟨⟨hreadsOK, hselfOK⟩, hownOK⟩, hrestOK⟩ := hOK
    have hlen : (o.2.eval t).length = n := outExpr_eval_length o.2 t n h2 h1
    have h1' : (t.setCol o.1 (o.2.eval t)).cols ≠ [] := Table.setCol_ne_nil t o.1 _
    have h2' : (t.setCol o.1 (o.2.eval t)).rect n := Table.setCol_rect t n o.1 _ h2 hlen
    have h3' : (t.setCol o.1 (o.2.eval t)).colNames.Nodup := Table.setCol_nodup t o.1 _ h3
    show runOuts (o :: rest)
        (g (runOuts rest (t.setCol o.1 (o.2.eval t)))) =
      g (runOuts rest (t.setCol o.1 (o.2.eval t)))
    have hRstruct := runOuts_struct n rest
      (t.setCol o.1 (o.2.eval t)) h1' h2' h3'
    have hFstruct := hgs _ hRstruct.1 hRstruct.2.1 hRstruct.2.2.1
    have hselfOK' : o.1 ∉ writesOfOuts rest ∧ o.1 ∉ later := by
      have h0 := hselfOK
      simp only [Bool.not_eq_true'] at h0
      exact contains_false_split h0
    have hevF : o.2.eval (g (runOuts rest (t.setCol o.1 (o.2.eval t)))) = o.2.eval t := by
      apply outExpr_eval_congr
      · rw [Table.nrows_of_rect _ n hFstruct.1 hFstruct.2.1,
          Table.nrows_of_rect t n h1 h2]
      · intro c hc
        have hsplit : c ∉ writesOfOuts rest ∧ c ∉ later := by
          have h0 := List.all_eq_true.mp hreadsOK c hc
          simp only [Bool.not_eq_true'] at h0
          exact contains_false_split h0
        have hco : ¬(c = o.1) := by
          intro he
          have : o.1 ∉ o.2.reads := by simpa using hownOK
          exact this (he ▸ hc)
        have hnr : (g (runOuts rest (t.setCol o.1 (o.2.eval t)))).nrows = t.nrows := by
          rw [Table.nrows_of_rect _ n hFstruct.1 hFstruct.2.1,
            Table.nrows_of_rect t n h1 h2]
        unfold Table.col
        rw [hg _ c hsplit.2, getCol?_runOuts_of_not_written rest c hsplit.1 _,
          Table.getCol?_setCol_ne t o.1 _ c hco, hnr]
    have hvalF : (g (runOuts rest (t.setCol o.1 (o.2.eval t)))).getCol? o.1 =
        some (o.2.eval t) := by
      rw [hg _ o.1 hselfOK'.2, getCol?_runOuts_of_not_written rest o.1 hselfOK'.1 _,
        Table.getCol?_setCol_self]
    show runOuts rest
        ((g (runOuts rest (t.setCol o.1 (o.2.eval t)))).setCol o.1
          (o.2.eval (g (runOuts rest (t.setCol o.1 (o.2.eval t)))))) = _
    rw [hevF, Table.setCol_noop _ o.1 _ hvalF hFstruct.2.2]
    exact ih (t.setCol o.1 (o.2.eval t)) hrestOK h1' h2' h3'

/-- The final table of a run of a chain of guarded blocks satisfying the
side conditions is a fixed point of the run. -/
lemma runBlocks_fix (n : Nat) :
    ∀ (bs : List Block) (t : Table),
    chainOK bs = true →
    t.cols ≠ [] → t.rect n → t.colNames.Nodup →
    runBlocks bs (runBlocks bs t) = runBlocks bs t := by
  intro bs
  induction bs with
  | nil => intro t _ _ _ _; rfl
  | cons b rest ih =>
    intro t hOK h1 h2 h3
    rw [chainOK, Bool.and_eq_true, Bool.and_eq_true] at hOK
    obtain ⟨⟨hguardOK, houtsOK⟩, hrestOK⟩ := hOK
    have hu1 := runBlock_struct b t n h1 h2 h3
    have hg : ∀ (x : Table) (c : String), c ∉ writesOfBlocks rest →
        (runBlocks rest x).getCol? c = x.getCol? c := by
      intro x c hcn
      exact getCol?_runBlocks_of_not_written rest c
        (fun b' hb' hw => hcn (mem_writesOfBlocks.mpr ⟨b', hb', hw⟩)) x
    have hgs : ∀ x : Table, x.cols ≠ [] → x.rect n → x.colNames.Nodup →
        ((runBlocks rest x).cols ≠ [] ∧ (runBlocks rest x).rect n ∧
          (runBlocks rest x).colNames.Nodup) :=
      fun x hx1 hx2 hx3 => runBlocks_struct n rest x hx1 hx2 hx3
    have hguards : ∀ c ∈ b.guardCols,
        (runBlocks rest (runBlock b t)).hasCol c = t.hasCol c := by
      intro c hc
      have hsplit : c ∉ writesOfBlock b ∧ c ∉ writesOfBlocks rest := by
        have h0 := List.all_eq_true.mp hguardOK c hc
        simp only [Bool.not_eq_true'] at h0
        exact contains_false_split h0
      rw [hasCol_runBlocks_of_not_written rest c
          (fun b' hb' hw => hsplit.2 (mem_writesOfBlocks.mpr ⟨b', hb', hw⟩)) _,
        hasCol_runBlock_of_not_written b c hsplit.1 t]
    show runBlocks rest (runBlock b (runBlocks rest (runBlock b t))) =
      runBlocks rest (runBlock b t)
    by_cases hgd : b.guardCols.all t.hasCol = true
    · have hu1eq : runBlock b t = runOuts b.outs t := by
        rw [runBlock_eqn, if_pos hgd]
      have hbF : runBlock b (runBlocks rest (runBlock b t)) =
          runBlocks rest (runBlock b t) := by
        rw [runBlock_eqn b (runBlocks rest (runBlock b t)),
          if_pos (by rw [all_hasCol_congr b.guardCols _ t hguards]; exact hgd)]
        rw [hu1eq]
        exact runOuts_fix (writesOfBlocks rest) (runBlocks rest) n hg hgs b.outs
          t houtsOK h1 h2 h3
      rw [hbF]
      exact ih (runBlock b t) hrestOK hu1.1 hu1.2.1 hu1.2.2.1
    · have hbF : runBlock b (runBlocks rest (runBlock b t)) =
          runBlocks rest (runBlock b t) := by
        rw [runBlock_eqn b (runBlocks rest (runBlock b t)),
          if_neg (by rw [all_hasCol_congr b.guardCols _ t hguards]; exact hgd)]
      rw [hbF]
      exact ih (runBlock b t) hrestOK hu1.1 hu1.2.1 hu1.2.2.1

lemma map_clean_id_of_all (vs : List Val)
    (h : vs.all (fun v => !v.isSpecial) = true) : vs.map Val.clean = vs := by
  induction vs with
  | nil => rfl
  | cons v rest ih =>
    rw [List.all_cons, Bool.and_eq_true] at h
    have hv : v.isSpecial = false := by simpa using h.1
    have hcv : Val.clean v = v := by
      cases v with
      | num q => rfl
      | str s => rfl
      | nan => simp [Val.isSpecial] at hv
      | pinf => simp [Val.isSpecial] at hv
      | ninf => simp [Val.isSpecial] at hv
    rw [List.map_cons, ih h.2, hcv]

lemma mapVals_clean_id (t : Table) (h : noSpecials t = true) :
    t.mapVals Val.clean = t := by
  rcases t with ⟨l⟩
  unfold noSpecials at h
  show Table.mk (l.map (fun p => (p.1, p.2.map Val.clean))) = ⟨l⟩
  rw [Table.mk.injEq]
  induction l with
  | nil => rfl
  | cons p rest ih =>
    rw [List.all_cons, Bool.and_eq_true] at h
    rw [List.map_cons, ih h.2, List.cons.injEq]
    exact ⟨by rw [map_clean_id_of_all p.2 h.1], rfl⟩

lemma Val.vadd_fin (a b : Val) (ha : a.isFin = true) (hb : b.isFin = true) :
    (Val.vadd a b).isFin = true := by
  cases a <;> cases b <;> first | rfl | (simp [Val.isFin] at ha hb)

lemma safe_divide_fin (a b : Val) (ha : a.isFin = true) (hb : b.isFin = true) :
    (safe_divide a b).isFin = true := by
  rcases a with p | _ | _ | _ | s <;> rcases b with q | _ | _ | _ | s2 <;>
    simp only [Val.isFin, Bool.false_eq_true] at ha hb
  unfold safe_divide
  split
  · next hcond =>
    have hq : 0 < q := by
      rw [Bool.and_eq_true, Bool.and_eq_true] at hcond
      simpa [Val.gtZero] using hcond.1.1
    simp [Val.vdiv, Val.vmul, ne_of_gt hq, Val.isFin]
  · rfl

lemma zipWith_all (f : Val → Val → Val) (p : Val → Bool)
    (hf : ∀ a b, p a = true → p b = true → p (f a b) = true) :
    ∀ (xs ys : List Val), xs.all p = true → ys.all p = true →
    (List.zipWith f xs ys).all p = true := by
  intro xs
  induction xs with
  | nil => intro ys _ _; rfl
  | cons x rest ih =>
    intro ys hx hy
    cases ys with
    | nil => rfl
    | cons y rest2 =>
      rw [List.all_cons, Bool.and_eq_true] at hx hy
      rw [List.zipWith_cons_cons, List.all_cons, Bool.and_eq_true]
      exact ⟨hf x y hx.1 hy.1, ih rest2 hx.2 hy.2⟩

lemma foldl_vadd_fin (l : List Val) :
    ∀ (acc : Val), acc.isFin = true → (∀ x ∈ l, x.isFin = true) →
    (l.foldl Val.vadd acc).isFin = true := by
  induction l with
  | nil => intro acc ha _; exact ha
  | cons x rest ih =>
    intro acc ha h
    rw [List.foldl_cons]
    exact ih _ (Val.vadd_fin acc x ha (h x (List.mem_cons_self _ _)))
      (fun y hy => h y (List.mem_cons_of_mem _ hy))

lemma Val.fin_finOrNan (v : Val) (h : v.isFin = true) : v.finOrNan = true := by
  unfold Val.finOrNan
  rw [h]
  rfl

lemma Val.vadd_finOrNan (a b : Val) (ha : a.finOrNan = true) (hb : b.finOrNan = true) :
    (Val.vadd a b).finOrNan = true := by
  cases a <;> cases b <;>
    simp [Val.finOrNan, Val.isFin, Val.vadd] at ha hb ⊢

lemma rowSum_allFin (columns : List (List Val)) (n : Nat)
    (h : ∀ c ∈ columns, c.all Val.finOrNan = true) :
    (rowSumSkipNa columns n).all Val.isFin = true := by
  unfold rowSumSkipNa
  rw [List.all_eq_true]
  intro v hv
  obtain ⟨i, _, he⟩ := List.mem_map.mp hv
  rw [← he]
  apply foldl_vadd_fin _ (Val.num 0) rfl
  intro x hx
  have hx2 := List.mem_filter.mp hx
  obtain ⟨c, hc, hce⟩ := List.mem_map.mp hx2.1
  have hgd : c.getD i Val.nan = (c.get? i).getD Val.nan := rfl
  cases hg : c.get? i with
  | none =>
    rw [hgd, hg] at hce
    rw [← hce] at hx2
    simp [Val.notna] at hx2
  | some y =>
    rw [hgd, hg] at hce
    have hy : y ∈ c := List.get?_mem hg
    have hyf := List.all_eq_true.mp (h c hc) y hy
    rw [← hce] at hx2 ⊢
    cases y <;> simp [Val.finOrNan, Val.isFin, Val.notna] at hyf hx2 ⊢

lemma col_allFin (t : Table) (c : String) (h : allNum t = true)
    (hc : t.hasCol c = true) : (t.col c).all Val.isFin = true := by
  unfold Table.col Table.getCol?
  unfold Table.hasCol at hc
  cases hf : t.cols.find? (fun p => p.1 == c) with
  | none => rw [hf] at hc; simp at hc
  | some pr =>
    have hmem := List.mem_of_find?_eq_some hf
    unfold allNum at h
    exact List.all_eq_true.mp h pr hmem

lemma col_finOrNan (t : Table) (c : String) (h : allNum t = true) :
    (t.col c).all Val.finOrNan = true := by
  unfold Table.col Table.getCol?
  cases hf : t.cols.find? (fun p => p.1 == c) with
  | none =>
    show (List.replicate t.nrows Val.nan).all Val.finOrNan = true
    rw [List.all_eq_true]
    intro v hv
    rw [List.eq_of_mem_replicate hv]
    rfl
  | some pr =>
    have hmem := List.mem_of_find?_eq_some hf
    unfold allNum at h
    rw [List.all_eq_true]
    intro v hv
    exact Val.fin_finOrNan v (List.all_eq_true.mp (List.all_eq_true.mp h pr hmem) v hv)

lemma numExpr_eval_finOrNan (e : NumExpr) (t : Table) (h : allNum t = true) :
    (e.eval t).all Val.finOrNan = true := by
  cases e with
  | colE nm => exact col_finOrNan t nm h
  | sumE ns =>
    have hfin : (rowSumSkipNa (ns.map t.col) t.nrows).all Val.isFin = true := by
      apply rowSum_allFin
      intro c hc
      obtain ⟨nm, _, he⟩ := List.mem_map.mp hc
      rw [← he]
      exact col_finOrNan t nm h
    rw [List.all_eq_true] at hfin ⊢
    exact fun v hv => Val.fin_finOrNan v (hfin v hv)
  | add2 a b =>
    exact zipWith_all Val.vadd Val.finOrNan Val.vadd_finOrNan _ _
      (col_finOrNan t a h) (col_finOrNan t b h)

/-- `safe_divide` yields a finite number whenever its numerator is finite
or NaN, whatever the denominator. -/
lemma safe_divide_fin_of_finOrNan (a b : Val) (ha : a.finOrNan = true) :
    (safe_divide a b).isFin = true := by
  rcases a with p | _ | _ | _ | s <;>
    simp only [Val.finOrNan, Val.isFin, Bool.false_or, Bool.true_or] at ha
  · cases b with
    | num q =>
      unfold safe_divide
      split
      · next hcond =>
        have hq : 0 < q := by
          rw [Bool.and_eq_true, Bool.and_eq_true] at hcond
          simpa [Val.gtZero] using hcond.1.1
        simp [Val.vdiv, Val.vmul, ne_of_gt hq, Val.isFin]
      · rfl
    | nan => rfl
    | pinf => rfl
    | ninf => rfl
    | str s2 => rfl
  · cases b <;> simp [safe_divide, Val.notna, Val.isFin]
  · simp at ha
  · simp at ha
  · simp at ha

lemma zipWith_sdiv_fin (xs : List Val) :
    ∀ ys : List Val, xs.all Val.finOrNan = true →
    (List.zipWith safe_divide xs ys).all Val.isFin = true := by
  induction xs with
  | nil => intro ys _; rfl
  | cons x rest ih =>
    intro ys hx
    cases ys with
    | nil => rfl
    | cons y rest2 =>
      rw [List.all_cons, Bool.and_eq_true] at hx
      rw [List.zipWith_cons_cons, List.all_cons, Bool.and_eq_true]
      exact ⟨safe_divide_fin_of_finOrNan x y hx.1, ih rest2 hx.2⟩

lemma outExpr_eval_allFin (o : OutExpr) (t : Table) (h : allNum t = true)
    (hcopy : ∀ nm, o = OutExpr.copy nm → t.hasCol nm = true) :
    (o.eval t).all Val.isFin = true := by
  cases o with
  | sdiv e d => exact zipWith_sdiv_fin _ _ (numExpr_eval_finOrNan e t h)
  | rsum ns =>
    apply rowSum_allFin
    intro c hc
    obtain ⟨nm, _, he⟩ := List.mem_map.mp hc
    rw [← he]
    exact col_finOrNan t nm h
  | copy nm => exact col_allFin t nm h (hcopy nm rfl)

lemma setCol_allNum (t : Table) (nm : String) (vs : List Val)
    (h : allNum t = true) (hv : vs.all Val.isFin = true) :
    allNum (t.setCol nm vs) = true := by
  unfold allNum at h ⊢
  unfold Table.setCol
  split
  · rw [List.all_eq_true]
    intro p hp
    obtain ⟨q, hq, he⟩ := List.mem_map.mp hp
    by_cases hq1 : q.1 = nm
    · rw [if_pos (by simp [hq1])] at he
      rw [← he]
      exact hv
    · rw [if_neg (by simp [hq1])] at he
      rw [← he]
      exact List.all_eq_true.mp h q hq
  · rw [List.all_eq_true]
    intro p hp
    rcases List.mem_append.mp hp with hl | hr
    · exact List.all_eq_true.mp h p hl
    · rw [List.mem_singleton.mp hr]
      exact hv

lemma runOuts_allNum (outs : List (String × OutExpr)) :
    ∀ t : Table, allNum t = true →
    (∀ o ∈ outs, ∀ nm, o.2 = OutExpr.copy nm → t.hasCol nm = true) →
    allNum (runOuts outs t) = true := by
  induction outs with
  | nil => intro t h _; exact h
  | cons o rest ih =>
    intro t h hcopy
    show allNum (runOuts rest (t.setCol o.1 (o.2.eval t))) = true
    refine ih _ (setCol_allNum t o.1 _ h (outExpr_eval_allFin o.2 t h
      (fun nm hnm => hcopy o (List.mem_cons_self _ _) nm hnm))) ?_
    intro o' ho' nm hnm
    exact Table.hasCol_setCol_of_has t o.1 _ nm
      (hcopy o' (List.mem_cons_of_mem _ ho') nm hnm)

lemma runBlock_allNum (b : Block) (t : Table)
    (hc : b.outs.all (fun o =>
      match o.2 with
      | OutExpr.copy nm => b.guardCols.contains nm
      | _ => true) = true)
    (h : allNum t = true) : allNum (runBlock b t) = true := by
  rw [runBlock_eqn]
  split
  · next hguard =>
    apply runOuts_allNum b.outs t h
    intro o ho nm hnm
    have := List.all_eq_true.mp hc o ho
    rw [hnm] at this
    have hmem : nm ∈ b.guardCols := by simpa using this
    exact List.all_eq_true.mp hguard nm hmem
  · exact h

lemma runBlocks_allNum (bs : List Block) (hcr : copyReadsOK bs = true) :
    ∀ t : Table, allNum t = true → allNum (runBlocks bs t) = true := by
  induction bs with
  | nil => intro t h; exact h
  | cons b rest ih =>
    rw [copyReadsOK, List.all_cons, Bool.and_eq_true] at hcr
    intro t h
    show allNum (runBlocks rest (runBlock b t)) = true
    exact ih hcr.2 _ (runBlock_allNum b t hcr.1 h)

lemma allNum_noSpecials (t : Table) (h : allNum t = true) : noSpecials t = true := by
  unfold allNum at h
  unfold noSpecials
  rw [List.all_eq_true]
  intro p hp
  rw [List.all_eq_true]
  intro v hv
  have := List.all_eq_true.mp (List.all_eq_true.mp h p hp) v hv
  cases v <;> simp [Val.isSpecial] <;> simp [Val.isFin] at this

/--
C3 (amended): the derived-indicator calculator is idempotent on every
well-formed wide table (rectangular, duplicate-free column names) for
which the derivation pass itself produces no NaN or ±inf before the final
`replace` — in particular on every such table whose cells are all finite
numbers, since the pass then produces only finite numbers.  (The
counterexample shows idempotence fails when a NaN or ±inf source cell is
rewritten to 0 by the first run's final `replace`.)
-/
theorem calculate_derived_indicators_idempotent :
    (∀ t : Table, t.colNames.Nodup → t.rect t.nrows →
        noSpecials (runBlocks derivedBlocks t) = true →
        calculate_derived_indicators (calculate_derived_indicators t) =
          calculate_derived_indicators t) ∧
    (∀ t : Table, allNum t = true → noSpecials (runBlocks derivedBlocks t) = true) := by
  constructor
  · intro t hnd hrect hns
    unfold calculate_derived_indicators
    rw [mapVals_clean_id _ hns]
    rcases hc : t.cols with _ | ⟨p, rest⟩
    · have hte : t = ⟨[]⟩ := by rcases t with ⟨l⟩; simpa using hc
      rw [hte, runBlocks_empty derivedBlocks (by decide),
        runBlocks_empty derivedBlocks (by decide)]
      rfl
    · have hne : t.cols ≠ [] := by rw [hc]; simp
      rw [runBlocks_fix t.nrows derivedBlocks t (by decide) hne hrect hnd]
      exact mapVals_clean_id _ hns
  · intro t h
    exact allNum_noSpecials _ (runBlocks_allNum derivedBlocks (by decide) t h)

/--
C3 witness: a one-column all-finite table is well-formed, its derivation
pass is special-value-free, and the calculator is idempotent on it.
-/
theorem calculate_derived_indicators_idempotent_witness :
    ((⟨[("Total_Population", [Val.num 100])]⟩ : Table).colNames.Nodup ∧
      (⟨[("Total_Population", [Val.num 100])]⟩ : Table).rect
        (⟨[("Total_Population", [Val.num 100])]⟩ : Table).nrows ∧
      noSpecials (runBlocks derivedBlocks ⟨[("Total_Population", [Val.num 100])]⟩) = true ∧
      calculate_derived_indicators
          (calculate_derived_indicators ⟨[("Total_Population", [Val.num 100])]⟩) =
        calculate_derived_indicators ⟨[("Total_Population", [Val.num 100])]⟩) ∧
    (allNum (⟨[("Total_Population", [Val.num 100])]⟩ : Table) = true ∧
      noSpecials (runBlocks derivedBlocks ⟨[("Total_Population", [Val.num 100])]⟩) = true) :=
  ⟨⟨by decide, by decide, by decide,
    calculate_derived_indicators_idempotent.1 ⟨[("Total_Population", [Val.num 100])]⟩
      (by decide) (by decide) (by decide)⟩,
   ⟨by decide,
    calculate_derived_indicators_idempotent.2 ⟨[("Total_Population", [Val.num 100])]⟩
      (by decide)⟩⟩

/-! ## The risk scorer (C4, C10) -/

lemma col_setCol_ne_rect (t : Table) (nm : String) (vs : List Val) (c : String)
    (n : Nat) (hne : ¬(c = nm)) (h1 : t.cols ≠ []) (h2 : t.rect n)
    (hv : vs.length = n) : (t.setCol nm vs).col c = t.col c := by
  unfold Table.col
  rw [Table.getCol?_setCol_ne t nm vs c hne,
    Table.nrows_of_rect _ n (Table.setCol_ne_nil t nm vs)
      (Table.setCol_rect t n nm vs h2 hv),
    Table.nrows_of_rect t n h1 h2]

lemma getCol?_stdFold_of_not_std (sq : ℚ → ℚ) :
    ∀ (avail : List String) (df : Table) (c : String),
    (∀ f ∈ avail, ¬(c = f ++ "_std")) →
    (stdFold sq avail df).getCol? c = df.getCol? c := by
  intro avail
  induction avail with
  | nil => intro df c _; rfl
  | cons f rest ih =>
    intro df c hc
    show (stdFold sq rest (df.setCol (f ++ "_std") _)).getCol? c = _
    rw [ih _ c (fun f' hf' => hc f' (List.mem_cons_of_mem _ hf')),
      Table.getCol?_setCol_ne _ _ _ c (hc f (List.mem_cons_self _ _))]

lemma stdColVal_length (sq : ℚ → ℚ) (vs : List Val) (nr : Nat) (h : vs.length = nr) :
    (stdColVal sq vs nr).length = nr := by
  unfold stdColVal zcol
  split
  · simpa using h
  · simp

lemma stdFold_struct (sq : ℚ → ℚ) (n : Nat) :
    ∀ (avail : List String) (df : Table),
    df.cols ≠ [] → df.rect n → df.colNames.Nodup →
    (stdFold sq avail df).cols ≠ [] ∧ (stdFold sq avail df).rect n ∧
      (stdFold sq avail df).colNames.Nodup := by
  intro avail
  induction avail with
  | nil => intro df h1 h2 h3; exact ⟨h1, h2, h3⟩
  | cons f rest ih =>
    intro df h1 h2 h3
    have hlen : (stdColVal sq (df.col f) df.nrows).length = n := by
      rw [stdColVal_length sq _ _ (by
        rw [Table.col_length_any df n f h1 h2, Table.nrows_of_rect df n h1 h2])]
      exact Table.nrows_of_rect df n h1 h2
    exact ih _ (Table.setCol_ne_nil df _ _)
      (Table.setCol_rect df n _ _ h2 hlen) (Table.setCol_nodup df _ _ h3)

lemma colNames_stdFold (sq : ℚ → ℚ) :
    ∀ (avail : List String) (df : Table),
    (∀ f ∈ avail, df.hasCol (f ++ "_std") = false) →
    (avail.map (· ++ "_std")).Nodup →
    (stdFold sq avail df).colNames = df.colNames ++ avail.map (· ++ "_std") := by
  intro avail
  induction avail with
  | nil => intro df _ _; simp [stdFold]
  | cons f rest ih =>
    intro df habs hnd
    rw [List.map_cons, List.nodup_cons] at hnd
    show (stdFold sq rest (df.setCol (f ++ "_std") _)).colNames = _
    rw [ih _ ?habs2 hnd.2,
      Table.colNames_setCol_of_not_has df _ _ (habs f (List.mem_cons_self _ _))]
    · simp
    case habs2 =>
      intro f' hf'
      rw [Table.hasCol_setCol]
      have h1 := habs f' (List.mem_cons_of_mem _ hf')
      have h2 : ¬(f' ++ "_std" = f ++ "_std") := by
        intro he
        exact hnd.1 (he ▸ List.mem_map.mpr ⟨f', hf', rfl⟩)
      simp [h1, h2]

lemma getCol?_stdFold_of_mem (sq : ℚ → ℚ) (n : Nat) :
    ∀ (avail : List String) (df : Table) (f : String),
    f ∈ avail → (avail.map (· ++ "_std")).Nodup →
    (∀ f' ∈ avail, ∀ f'' ∈ avail, ¬(f' = f'' ++ "_std")) →
    df.cols ≠ [] → df.rect n → df.colNames.Nodup →
    (stdFold sq avail df).getCol? (f ++ "_std") =
      some (stdColVal sq (df.col f) n) := by
  intro avail
  induction avail with
  | nil => intro df f hf; cases hf
  | cons f0 rest ih =>
    intro df f hf hnd hfac h1 h2 h3
    rw [List.map_cons, List.nodup_cons] at hnd
    have hlen : (stdColVal sq (df.col f0) df.nrows).length = n := by
      rw [stdColVal_length sq _ _ (by
        rw [Table.col_length_any df n f0 h1 h2, Table.nrows_of_rect df n h1 h2])]
      exact Table.nrows_of_rect df n h1 h2
    have h1' := Table.setCol_ne_nil df (f0 ++ "_std") (stdColVal sq (df.col f0) df.nrows)
    have h2' := Table.setCol_rect df n (f0 ++ "_std") _ h2 hlen
    have h3' := Table.setCol_nodup df (f0 ++ "_std") (stdColVal sq (df.col f0) df.nrows) h3
    rcases List.mem_cons.mp hf with hfe | hfr
    · subst hfe
      show (stdFold sq rest (df.setCol (f ++ "_std") _)).getCol? (f ++ "_std") = _
      rw [getCol?_stdFold_of_not_std sq rest _ _ ?hne, Table.getCol?_setCol_self,
        Table.nrows_of_rect df n h1 h2]
      case hne =>
        intro f' hf' he
        exact hnd.1 (he ▸ List.mem_map.mpr ⟨f', hf', rfl⟩)
    · show (stdFold sq rest (df.setCol (f0 ++ "_std") _)).getCol? (f ++ "_std") = _
      rw [ih _ f hfr hnd.2
        (fun a ha b hb => hfac a (List.mem_cons_of_mem _ ha) b (List.mem_cons_of_mem _ hb))
        h1' h2' h3']
      rw [col_setCol_ne_rect df (f0 ++ "_std") _ f n
        (hfac f hf f0 (List.mem_cons_self _ _)) h1 h2 hlen]

lemma rowMeanSkipNa_length (columns : List (List Val)) (n : Nat) :
    (rowMeanSkipNa columns n).length = n := by
  simp [rowMeanSkipNa]

lemma groupStep_vals (sq : ℚ → ℚ) (n : Nat) (df : Table) (g : String × List String)
    (h1 : df.cols ≠ []) (h2 : df.rect n) (h3 : df.colNames.Nodup)
    (hwnd : (gwrites g).Nodup)
    (hfac : ∀ f ∈ g.2, f ∉ gwrites g) :
    (groupStep sq df g).cols ≠ [] ∧ (groupStep sq df g).rect n ∧
      (groupStep sq df g).colNames.Nodup ∧
      (∀ c, c ∉ gwrites g → (groupStep sq df g).getCol? c = df.getCol? c) ∧
      (∀ f ∈ g.2.filter df.hasCol,
        (groupStep sq df g).getCol? (f ++ "_std") =
          some (stdColVal sq (df.col f) n)) ∧
      ((g.2.filter df.hasCol).isEmpty = false →
        (groupStep sq df g).hasCol g.1 = true) := by
  have hwnd' := List.nodup_append.mp hwnd
  have hg1 : g.1 ∉ g.2.map (· ++ "_std") := by
    intro hm
    exact hwnd'.2.2 hm (List.mem_singleton.mpr rfl)
  by_cases he : (g.2.filter df.hasCol).isEmpty
  · have hgs : groupStep sq df g = df := by
      unfold groupStep
      simp [he]
    rw [hgs]
    refine ⟨h1, h2, h3, fun c _ => rfl, ?_, ?_⟩
    · intro f hf
      rw [List.isEmpty_iff.mp he] at hf
      cases hf
    · intro hne
      rw [he] at hne
      cases hne
  · have hgs : groupStep sq df g =
        (stdFold sq (g.2.filter df.hasCol) df).setCol g.1
          (rowMeanSkipNa
            (((g.2.filter df.hasCol)).map
              (fun f => (stdFold sq (g.2.filter df.hasCol) df).col (f ++ "_std")))
            (stdFold sq (g.2.filter df.hasCol) df).nrows) := by
      unfold groupStep
      simp [he]
    have hsub : (g.2.filter df.hasCol).Sublist g.2 := List.filter_sublist _
    have hstdnd : ((g.2.filter df.hasCol).map (· ++ "_std")).Nodup :=
      hwnd'.1.sublist (hsub.map _)
    have hfac' : ∀ f' ∈ g.2.filter df.hasCol, ∀ f'' ∈ g.2.filter df.hasCol,
        ¬(f' = f'' ++ "_std") := by
      intro f' hf' f'' hf'' heq
      refine hfac f' (hsub.subset hf') ?_
      rw [heq]
      exact List.mem_append_left _
        (List.mem_map.mpr ⟨f'', hsub.subset hf'', rfl⟩)
    obtain ⟨hs1, hs2, hs3⟩ :=
      stdFold_struct sq n (g.2.filter df.hasCol) df h1 h2 h3
    have hlen : (rowMeanSkipNa
        (((g.2.filter df.hasCol)).map
          (fun f => (stdFold sq (g.2.filter df.hasCol) df).col (f ++ "_std")))
        (stdFold sq (g.2.filter df.hasCol) df).nrows).length = n := by
      rw [rowMeanSkipNa_length]
      exact Table.nrows_of_rect _ n hs1 hs2
    refine ⟨?_, ?_, ?_, ?_, ?_, ?_⟩
    · rw [hgs]; exact Table.setCol_ne_nil _ _ _
    · rw [hgs]; exact Table.setCol_rect _ n _ _ hs2 hlen
    · rw [hgs]; exact Table.setCol_nodup _ _ _ hs3
    · intro c hc
      rw [hgs, Table.getCol?_setCol_ne _ _ _ c
        (fun hce => hc (hce ▸ List.mem_append_right _ (List.mem_singleton.mpr rfl)))]
      refine getCol?_stdFold_of_not_std sq _ _ c ?_
      intro f hf heq
      refine hc ?_
      rw [heq]
      exact List.mem_append_left _ (List.mem_map.mpr ⟨f, hsub.subset hf, rfl⟩)
    · intro f hf
      have hne : ¬(f ++ "_std" = g.1) := by
        intro heq
        exact hg1 (heq ▸ List.mem_map.mpr ⟨f, hsub.subset hf, rfl⟩)
      rw [hgs, Table.getCol?_setCol_ne _ _ _ _ hne]
      exact getCol?_stdFold_of_mem sq n _ df f hf hstdnd hfac' h1 h2 h3
    · intro _
      rw [hgs, Table.hasCol_setCol]
      simp

lemma hasCol_eq_isSome_getCol? (t : Table) (c : String) :
    t.hasCol c = (t.getCol? c).isSome := by
  unfold Table.hasCol Table.getCol?
  cases t.cols.find? (fun p => p.1 == c) <;> rfl

lemma col_eq_of_getCol?_eq (t t' : Table) (c : String) (n : Nat)
    (h : t.getCol? c = t'.getCol? c) (ht : t.cols ≠ []) (h2 : t.rect n)
    (ht' : t'.cols ≠ []) (h2' : t'.rect n) : t.col c = t'.col c := by
  unfold Table.col
  rw [h, Table.nrows_of_rect t n ht h2, Table.nrows_of_rect t' n ht' h2']

lemma appendedGroups_congr :
    ∀ (gs : List (String × List String)) (has1 has2 : String → Bool),
    (∀ g ∈ gs, ∀ f ∈ g.2, has1 f = has2 f) →
    appendedGroups gs has1 = appendedGroups gs has2 := by
  intro gs
  induction gs with
  | nil => intro _ _ _; rfl
  | cons g rest ih =>
    intro has1 has2 h
    show (if (g.2.filter has1).isEmpty then [] else _) ++ appendedGroups rest has1 = _
    rw [List.filter_congr (h g (List.mem_cons_self _ _)),
      ih has1 has2 (fun g' hg' => h g' (List.mem_cons_of_mem _ hg'))]
    rfl

lemma mem_groupAppend_sub (g : String × List String) (has : String → Bool) :
    ∀ c ∈ (if (g.2.filter has).isEmpty then []
           else (g.2.filter has).map (· ++ "_std") ++ [g.1]),
    c ∈ gwrites g := by
  intro c hc
  split at hc
  · cases hc
  · rcases List.mem_append.mp hc with hl | hr
    · obtain ⟨f, hf, rfl⟩ := List.mem_map.mp hl
      exact List.mem_append_left _
        (List.mem_map.mpr ⟨f, (List.filter_sublist _).subset hf, rfl⟩)
    · exact List.mem_append_right _ hr

lemma groupStep_names (sq : ℚ → ℚ) (n : Nat) (df : Table) (g : String × List String)
    (h1 : df.cols ≠ []) (h2 : df.rect n) (h3 : df.colNames.Nodup)
    (hwnd : (gwrites g).Nodup)
    (hnew : ∀ c ∈ gwrites g, df.hasCol c = false) :
    (groupStep sq df g).colNames = df.colNames ++
      (if (g.2.filter df.hasCol).isEmpty then []
       else (g.2.filter df.hasCol).map (· ++ "_std") ++ [g.1]) := by
  have hwnd' := List.nodup_append.mp hwnd
  have hg1 : g.1 ∉ g.2.map (· ++ "_std") := by
    intro hm
    exact hwnd'.2.2 hm (List.mem_singleton.mpr rfl)
  by_cases he : (g.2.filter df.hasCol).isEmpty
  · have hgs : groupStep sq df g = df := by
      unfold groupStep
      simp [he]
    rw [hgs, he]
    simp
  · have hgs : groupStep sq df g =
        (stdFold sq (g.2.filter df.hasCol) df).setCol g.1
          (rowMeanSkipNa
            (((g.2.filter df.hasCol)).map
              (fun f => (stdFold sq (g.2.filter df.hasCol) df).col (f ++ "_std")))
            (stdFold sq (g.2.filter df.hasCol) df).nrows) := by
      unfold groupStep
      simp [he]
    have hsub : (g.2.filter df.hasCol).Sublist g.2 := List.filter_sublist _
    have hstdnd : ((g.2.filter df.hasCol).map (· ++ "_std")).Nodup :=
      hwnd'.1.sublist (hsub.map _)
    have hnames2 : (stdFold sq (g.2.filter df.hasCol) df).colNames =
        df.colNames ++ (g.2.filter df.hasCol).map (· ++ "_std") := by
      refine colNames_stdFold sq _ df ?_ hstdnd
      intro f hf
      exact hnew (f ++ "_std")
        (List.mem_append_left _ (List.mem_map.mpr ⟨f, hsub.subset hf, rfl⟩))
    have hg1abs : (stdFold sq (g.2.filter df.hasCol) df).hasCol g.1 = false := by
      rw [Bool.eq_false_iff]
      intro htrue
      have hm := (Table.mem_colNames_iff_hasCol _ g.1).mpr htrue
      rw [hnames2] at hm
      rcases List.mem_append.mp hm with hl | hr
      · have := (Table.mem_colNames_iff_hasCol df g.1).mp hl
        rw [hnew g.1 (List.mem_append_right _ (List.mem_singleton.mpr rfl))] at this
        cases this
      · obtain ⟨f, hf, hfe⟩ := List.mem_map.mp hr
        exact hg1 (hfe ▸ List.mem_map.mpr ⟨f, hsub.subset hf, rfl⟩)
    rw [hgs, Table.colNames_setCol_of_not_has _ _ _ hg1abs, hnames2, if_neg he,
      List.append_assoc]

lemma groupsFold_vals (sq : ℚ → ℚ) (n : Nat) :
    ∀ (gs : List (String × List String)) (df : Table),
    df.cols ≠ [] → df.rect n → df.colNames.Nodup →
    (gswrites gs).Nodup →
    (∀ g ∈ gs, ∀ f ∈ g.2, f ∉ gswrites gs) →
    (gs.foldl (groupStep sq) df).cols ≠ [] ∧
      (gs.foldl (groupStep sq) df).rect n ∧
      (gs.foldl (groupStep sq) df).colNames.Nodup ∧
      (∀ c, c ∉ gswrites gs →
        (gs.foldl (groupStep sq) df).getCol? c = df.getCol? c) ∧
      (∀ g ∈ gs, ∀ f ∈ g.2.filter df.hasCol,
        (gs.foldl (groupStep sq) df).getCol? (f ++ "_std") =
          some (stdColVal sq (df.col f) n)) ∧
      (∀ g ∈ gs, (g.2.filter df.hasCol).isEmpty = false →
        (gs.foldl (groupStep sq) df).hasCol g.1 = true) := by
  intro gs
  induction gs with
  | nil =>
    intro df h1 h2 h3 _ _
    refine ⟨h1, h2, h3, fun _ _ => rfl, ?_, ?_⟩
    · intro g' hg'
      cases hg'
    · intro g' hg'
      cases hg'
  | cons g rest ih =>
    intro df h1 h2 h3 hD1 hD2
    have hsplit : gswrites (g :: rest) = gwrites g ++ gswrites rest := rfl
    rw [hsplit] at hD1 hD2
    have hD1' := List.nodup_append.mp hD1
    have hfacg : ∀ f ∈ g.2, f ∉ gwrites g := by
      intro f hf hm
      exact hD2 g (List.mem_cons_self _ _) f hf (List.mem_append_left _ hm)
    obtain ⟨hA1, hA2, hA3, hAst, hAval, hAhas⟩ :=
      groupStep_vals sq n df g h1 h2 h3 hD1'.1 hfacg
    obtain ⟨hB1, hB2, hB3, hBst, hBval, hBhas⟩ :=
      ih (groupStep sq df g) hA1 hA2 hA3 hD1'.2.1
        (fun g' hg' f hf hm =>
          hD2 g' (List.mem_cons_of_mem _ hg') f hf (List.mem_append_right _ hm))
    have hfconst : ∀ g' ∈ rest, ∀ f ∈ g'.2,
        (groupStep sq df g).hasCol f = df.hasCol f ∧
        (groupStep sq df g).col f = df.col f := by
      intro g' hg' f hf
      have hfn : f ∉ gwrites g := fun hm =>
        hD2 g' (List.mem_cons_of_mem _ hg') f hf (List.mem_append_left _ hm)
      have hgc := hAst f hfn
      constructor
      · rw [hasCol_eq_isSome_getCol?, hasCol_eq_isSome_getCol?, hgc]
      · exact col_eq_of_getCol?_eq _ df f n hgc hA1 hA2 h1 h2
    rw [List.foldl_cons]
    refine ⟨hB1, hB2, hB3, ?_, ?_, ?_⟩
    · intro c hc
      rw [hsplit, List.mem_append] at hc
      push_neg at hc
      rw [hBst c hc.2]
      exact hAst c hc.1
    · intro g' hg' f hf
      rcases List.mem_cons.mp hg' with hge | hgr
      · subst hge
        have hstd : f ++ "_std" ∉ gswrites rest := by
          intro hm
          exact hD1'.2.2
            (List.mem_append_left _
              (List.mem_map.mpr ⟨f, (List.filter_sublist _).subset hf, rfl⟩)) hm
        rw [hBst _ hstd]
        exact hAval f hf
      · have hfilt : g'.2.filter df.hasCol = g'.2.filter (groupStep sq df g).hasCol :=
          (List.filter_congr (fun f' hf' => (hfconst g' hgr f' hf').1)).symm
        rw [hfilt] at hf
        rw [hBval g' hgr f hf,
          (hfconst g' hgr f ((List.filter_sublist _).subset hf)).2]
    · intro g' hg' hne
      rcases List.mem_cons.mp hg' with hge | hgr
      · subst hge
        have hg1 : g'.1 ∉ gswrites rest := by
          intro hm
          exact hD1'.2.2
            (List.mem_append_right _ (List.mem_singleton.mpr rfl)) hm
        rw [hasCol_eq_isSome_getCol?, hBst _ hg1, ← hasCol_eq_isSome_getCol?]
        exact hAhas hne
      · have hfilt : g'.2.filter df.hasCol = g'.2.filter (groupStep sq df g).hasCol :=
          (List.filter_congr (fun f' hf' => (hfconst g' hgr f' hf').1)).symm
        rw [hfilt] at hne
        exact hBhas g' hgr hne

lemma groupsFold_names (sq : ℚ → ℚ) (n : Nat) :
    ∀ (gs : List (String × List String)) (df : Table),
    df.cols ≠ [] → df.rect n → df.colNames.Nodup →
    (gswrites gs).Nodup →
    (∀ g ∈ gs, ∀ f ∈ g.2, f ∉ gswrites gs) →
    (∀ c ∈ gswrites gs, df.hasCol c = false) →
    (gs.foldl (groupStep sq) df).colNames =
      df.colNames ++ appendedGroups gs df.hasCol := by
  intro gs
  induction gs with
  | nil =>
    intro df _ _ _ _ _ _
    simp [appendedGroups]
  | cons g rest ih =>
    intro df h1 h2 h3 hD1 hD2 hnew
    have hsplit : gswrites (g :: rest) = gwrites g ++ gswrites rest := rfl
    rw [hsplit] at hD1 hD2 hnew
    have hD1' := List.nodup_append.mp hD1
    have hfacg : ∀ f ∈ g.2, f ∉ gwrites g := by
      intro f hf hm
      exact hD2 g (List.mem_cons_self _ _) f hf (List.mem_append_left _ hm)
    obtain ⟨hA1, hA2, hA3, hAst, _, _⟩ :=
      groupStep_vals sq n df g h1 h2 h3 hD1'.1 hfacg
    have hnames1 : (groupStep sq df g).colNames = df.colNames ++
        (if (g.2.filter df.hasCol).isEmpty then []
         else (g.2.filter df.hasCol).map (· ++ "_std") ++ [g.1]) :=
      groupStep_names sq n df g h1 h2 h3 hD1'.1
        (fun c hc => hnew c (List.mem_append_left _ hc))
    have hnew' : ∀ c ∈ gswrites rest, (groupStep sq df g).hasCol c = false := by
      intro c hc
      rw [Bool.eq_false_iff]
      intro htrue
      have hm := (Table.mem_colNames_iff_hasCol _ c).mpr htrue
      rw [hnames1] at hm
      rcases List.mem_append.mp hm with hl | hr
      · have := (Table.mem_colNames_iff_hasCol df c).mp hl
        rw [hnew c (List.mem_append_right _ hc)] at this
        cases this
      · exact hD1'.2.2 (mem_groupAppend_sub g df.hasCol c hr) hc
    have hfconst : ∀ g' ∈ rest, ∀ f ∈ g'.2,
        (groupStep sq df g).hasCol f = df.hasCol f := by
      intro g' hg' f hf
      have hfn : f ∉ gwrites g := fun hm =>
        hD2 g' (List.mem_cons_of_mem _ hg') f hf (List.mem_append_left _ hm)
      rw [hasCol_eq_isSome_getCol?, hasCol_eq_isSome_getCol?, hAst f hfn]
    rw [List.foldl_cons,
      ih (groupStep sq df g) hA1 hA2 hA3 hD1'.2.1
        (fun g' hg' f hf hm =>
          hD2 g' (List.mem_cons_of_mem _ hg') f hf (List.mem_append_right _ hm))
        hnew',
      appendedGroups_congr rest _ df.hasCol hfconst, hnames1,
      List.append_assoc]
    rfl

lemma stdPos_eq_false_of_stdIsZero (vs : List Val) (h : stdIsZero vs = true) :
    stdPos vs = false := by
  unfold stdIsZero at h
  unfold stdPos
  rw [Bool.and_eq_true, Bool.and_eq_true] at h
  obtain ⟨⟨hle, hfin⟩, hz⟩ := h
  show (decide (2 ≤ (List.filter Val.notna vs).length) &&
    (List.filter Val.notna vs).all Val.isFin &&
    decide (0 < varQ (validNums vs))) = false
  have hnz : ¬(0 < varQ (validNums vs)) := by
    rw [of_decide_eq_true hz]
    exact lt_irrefl 0
  rw [hle, hfin]
  simp [hnz]

lemma cols_ne_nil_of_hasCol (t : Table) (c : String) (h : t.hasCol c = true) :
    t.cols ≠ [] := by
  intro he
  unfold Table.hasCol at h
  rw [he] at h
  cases h

lemma isEmptyTab_eq_false (t : Table) (h1 : t.cols ≠ []) (h2 : t.nrows ≠ 0) :
    t.isEmptyTab = false := by
  unfold Table.isEmptyTab
  have hc : t.cols.isEmpty = false := by
    cases hc : t.cols with
    | nil => exact absurd hc h1
    | cons a l => rfl
  have hn : (t.nrows == 0) = false := by
    cases hne : t.nrows with
    | zero => exact absurd hne h2
    | succ k => rfl
  rw [hc, hn]
  rfl

lemma mem_gswrites_of_mem_gwrites (gs : List (String × List String))
    (g : String × List String) (c : String) (hg : g ∈ gs) (hc : c ∈ gwrites g) :
    c ∈ gswrites gs :=
  List.mem_flatten.mpr ⟨gwrites g, List.mem_map.mpr ⟨g, hg, rfl⟩, hc⟩

lemma mem_appendedGroups_sub (gs : List (String × List String))
    (has : String → Bool) : ∀ c ∈ appendedGroups gs has, c ∈ gswrites gs := by
  intro c hc
  obtain ⟨l, hl, hcl⟩ := List.mem_flatten.mp hc
  obtain ⟨g, hg, rfl⟩ := List.mem_map.mp hl
  exact mem_gswrites_of_mem_gwrites gs g c hg (mem_groupAppend_sub g has c hcl)

lemma appendedGroups_eq_nil_of_all_empty :
    ∀ (gs : List (String × List String)) (has : String → Bool),
    (∀ g ∈ gs, (g.2.filter has).isEmpty = true) → appendedGroups gs has = [] := by
  intro gs
  induction gs with
  | nil => intro _ _; rfl
  | cons g rest ih =>
    intro has h
    show (if (g.2.filter has).isEmpty then [] else _) ++ appendedGroups rest has = []
    rw [if_pos (h g (List.mem_cons_self _ _)),
      ih has (fun g' hg' => h g' (List.mem_cons_of_mem _ hg'))]
    rfl

/--
C4: in `develop_isolation_risk_model`, on every well-formed frame
(rectangular, duplicate-free column names), a listed risk factor that is
present with zero standard deviation (a constant column of at least two
finite values) gets a `<factor>_std` column that is exactly 0 in every
row — the `std > 0` test fails, so the z-score division is never taken —
and `Social_Isolation_Risk_Index` is still the row-wise mean of exactly
the category-score columns present in the output.
-/
theorem risk_model_zero_std (sq : ℚ → ℚ) (t : Table) (f : String)
    (hrect : t.rect t.nrows) (hnd : t.colNames.Nodup)
    (hf : f ∈ allRiskFactors) (hhas : t.hasCol f = true)
    (hstd : stdIsZero (t.col f) = true) :
    (develop_isolation_risk_model sq t).getCol? (f ++ "_std") =
      some (List.replicate t.nrows (Val.num 0)) ∧
    (develop_isolation_risk_model sq t).getCol? "Social_Isolation_Risk_Index" =
      some (rowMeanSkipNa
        ((riskComponents.filter (develop_isolation_risk_model sq t).hasCol).map
          (develop_isolation_risk_model sq t).col) t.nrows) := by
  have h1 : t.cols ≠ [] := cols_ne_nil_of_hasCol t f hhas
  have hlen2 : 2 ≤ t.nrows := by
    have hstd0 := hstd
    unfold stdIsZero at hstd0
    rw [Bool.and_eq_true, Bool.and_eq_true] at hstd0
    have hle := of_decide_eq_true hstd0.1.1
    calc 2 ≤ (List.filter Val.notna (t.col f)).length := hle
      _ ≤ (t.col f).length := List.length_filter_le _ _
      _ = t.nrows := Table.col_length_any t t.nrows f h1 hrect
  have hnz : t.nrows ≠ 0 := by omega
  have hemp : t.isEmptyTab = false := isEmptyTab_eq_false t h1 hnz
  have hD1 : (gswrites riskFactorGroups).Nodup := by decide
  have hD2 : ∀ g ∈ riskFactorGroups, ∀ f' ∈ g.2,
      f' ∉ gswrites riskFactorGroups := by decide
  obtain ⟨hA1, hA2, hA3, hAst, hAval, hAhas⟩ :=
    groupsFold_vals sq t.nrows riskFactorGroups t h1 hrect hnd hD1 hD2
  have hf2 : f ∈ (riskFactorGroups.map Prod.snd).flatten := hf
  obtain ⟨l, hl, hfl⟩ := List.mem_flatten.mp hf2
  obtain ⟨g, hg, rfl⟩ := List.mem_map.mp hl
  have hffilt : f ∈ g.2.filter t.hasCol := List.mem_filter.mpr ⟨hfl, hhas⟩
  have hfe : (g.2.filter t.hasCol).isEmpty = false := by
    cases hq : g.2.filter t.hasCol with
    | nil => rw [hq] at hffilt; cases hffilt
    | cons a l2 => rfl
  have hdfval := hAval g hg f hffilt
  have hdfstd : stdColVal sq (t.col f) t.nrows =
      List.replicate t.nrows (Val.num 0) := by
    unfold stdColVal
    rw [stdPos_eq_false_of_stdIsZero _ hstd]
    simp
  have hg1has : (riskFactorGroups.foldl (groupStep sq) t).hasCol g.1 = true :=
    hAhas g hg hfe
  have hcompmem : g.1 ∈ riskComponents := by
    have hcomp : riskComponents = riskFactorGroups.map Prod.fst := rfl
    rw [hcomp]
    exact List.mem_map.mpr ⟨g, hg, rfl⟩
  have hcfilt : g.1 ∈ riskComponents.filter
      (riskFactorGroups.foldl (groupStep sq) t).hasCol :=
    List.mem_filter.mpr ⟨hcompmem, hg1has⟩
  have havail : (riskComponents.filter
      (riskFactorGroups.foldl (groupStep sq) t).hasCol).isEmpty = false := by
    cases hq : riskComponents.filter
        (riskFactorGroups.foldl (groupStep sq) t).hasCol with
    | nil => rw [hq] at hcfilt; cases hcfilt
    | cons a l2 => rfl
  have hdev0 : develop_isolation_risk_model sq t =
      (if (riskComponents.filter
            (riskFactorGroups.foldl (groupStep sq) t).hasCol).isEmpty
       then riskFactorGroups.foldl (groupStep sq) t
       else
        ((riskFactorGroups.foldl (groupStep sq) t).setCol
            "Social_Isolation_Risk_Index"
            (rowMeanSkipNa
              ((riskComponents.filter
                (riskFactorGroups.foldl (groupStep sq) t).hasCol).map
                (riskFactorGroups.foldl (groupStep sq) t).col)
              (riskFactorGroups.foldl (groupStep sq) t).nrows)).setCol
          "Risk_Category"
          ((((riskFactorGroups.foldl (groupStep sq) t).setCol
              "Social_Isolation_Risk_Index"
              (rowMeanSkipNa
                ((riskComponents.filter
                  (riskFactorGroups.foldl (groupStep sq) t).hasCol).map
                  (riskFactorGroups.foldl (groupStep sq) t).col)
                (riskFactorGroups.foldl (groupStep sq) t).nrows)).col
              "Social_Isolation_Risk_Index").map riskCut)) := by
    unfold develop_isolation_risk_model
    rw [hemp, if_neg Bool.false_ne_true]
  have hdev : develop_isolation_risk_model sq t =
      ((riskFactorGroups.foldl (groupStep sq) t).setCol
          "Social_Isolation_Risk_Index"
          (rowMeanSkipNa
            ((riskComponents.filter
              (riskFactorGroups.foldl (groupStep sq) t).hasCol).map
              (riskFactorGroups.foldl (groupStep sq) t).col)
            (riskFactorGroups.foldl (groupStep sq) t).nrows)).setCol
        "Risk_Category"
        ((((riskFactorGroups.foldl (groupStep sq) t).setCol
            "Social_Isolation_Risk_Index"
            (rowMeanSkipNa
              ((riskComponents.filter
                (riskFactorGroups.foldl (groupStep sq) t).hasCol).map
                (riskFactorGroups.foldl (groupStep sq) t).col)
              (riskFactorGroups.foldl (groupStep sq) t).nrows)).col
            "Social_Isolation_Risk_Index").map riskCut) := by
    rw [hdev0, havail, if_neg Bool.false_ne_true]
  have hdisj : ∀ f' ∈ allRiskFactors,
      ¬(f' ++ "_std" = "Social_Isolation_Risk_Index") ∧
      ¬(f' ++ "_std" = "Risk_Category") := by decide
  have hcne : ∀ c ∈ riskComponents,
      ¬(c = "Social_Isolation_Risk_Index") ∧ ¬(c = "Risk_Category") := by decide
  set dfG := riskFactorGroups.foldl (groupStep sq) t with hdfGdef
  set idxv := rowMeanSkipNa ((riskComponents.filter dfG.hasCol).map dfG.col)
    dfG.nrows with hidxvdef
  set df2 := dfG.setCol "Social_Isolation_Risk_Index" idxv with hdf2def
  set catv := (df2.col "Social_Isolation_Risk_Index").map riskCut with hcatvdef
  have hdfn : dfG.nrows = t.nrows := Table.nrows_of_rect _ t.nrows hA1 hA2
  have hidxlen : idxv.length = t.nrows := by
    rw [hidxvdef, rowMeanSkipNa_length, hdfn]
  have hd2rect : df2.rect t.nrows := by
    rw [hdf2def]
    exact Table.setCol_rect _ t.nrows _ _ hA2 hidxlen
  have hd2ne : df2.cols ≠ [] := by
    rw [hdf2def]
    exact Table.setCol_ne_nil _ _ _
  have hcatlen : catv.length = t.nrows := by
    rw [hcatvdef, List.length_map]
    exact Table.col_length_any _ t.nrows _ hd2ne hd2rect
  have houtrect : (df2.setCol "Risk_Category" catv).rect t.nrows :=
    Table.setCol_rect _ t.nrows _ _ hd2rect hcatlen
  have houtne : (df2.setCol "Risk_Category" catv).cols ≠ [] :=
    Table.setCol_ne_nil _ _ _
  constructor
  · rw [hdev, Table.getCol?_setCol_ne _ _ _ _ (hdisj f hf).2, hdf2def,
      Table.getCol?_setCol_ne _ _ _ _ (hdisj f hf).1, hdfval, hdfstd]
  · have hidx : df2.getCol? "Social_Isolation_Risk_Index" = some idxv := by
      rw [hdf2def]
      exact Table.getCol?_setCol_self _ _ _
    rw [hdev,
      Table.getCol?_setCol_ne _ _ _ _
        (by decide : ¬("Social_Isolation_Risk_Index" = "Risk_Category")),
      hidx]
    have hoc : ∀ c ∈ riskComponents,
        (df2.setCol "Risk_Category" catv).getCol? c = dfG.getCol? c := by
      intro c hc
      rw [Table.getCol?_setCol_ne _ _ _ _ (hcne c hc).2, hdf2def,
        Table.getCol?_setCol_ne _ _ _ _ (hcne c hc).1]
    have hfilt2 : riskComponents.filter (df2.setCol "Risk_Category" catv).hasCol =
        riskComponents.filter dfG.hasCol :=
      List.filter_congr (fun c hc => by
        rw [hasCol_eq_isSome_getCol?, hasCol_eq_isSome_getCol?, hoc c hc])
    rw [hfilt2]
    have hmap2 : (riskComponents.filter dfG.hasCol).map
          (df2.setCol "Risk_Category" catv).col =
        (riskComponents.filter dfG.hasCol).map dfG.col :=
      List.map_congr_left (fun c hc =>
        col_eq_of_getCol?_eq _ _ c t.nrows
          (hoc c ((List.filter_sublist _).subset hc)) houtne houtrect hA1 hA2)
    rw [hmap2, hidxvdef, hdfn]

/--
C4 witness: a one-column frame whose `Poverty_Rate` is the constant 5 on
two rows — its standard deviation is 0 — gets `Poverty_Rate_std = [0, 0]`
and an index column averaging the present category scores.
-/
theorem risk_model_zero_std_witness :
    (develop_isolation_risk_model (fun q => q)
        ⟨[("Poverty_Rate", [Val.num 5, Val.num 5])]⟩).getCol?
        ("Poverty_Rate" ++ "_std") =
      some (List.replicate
        (Table.nrows ⟨[("Poverty_Rate", [Val.num 5, Val.num 5])]⟩) (Val.num 0)) ∧
    (develop_isolation_risk_model (fun q => q)
        ⟨[("Poverty_Rate", [Val.num 5, Val.num 5])]⟩).getCol?
        "Social_Isolation_Risk_Index" =
      some (rowMeanSkipNa
        ((riskComponents.filter
          (develop_isolation_risk_model (fun q => q)
            ⟨[("Poverty_Rate", [Val.num 5, Val.num 5])]⟩).hasCol).map
          (develop_isolation_risk_model (fun q => q)
            ⟨[("Poverty_Rate", [Val.num 5, Val.num 5])]⟩).col)
        (Table.nrows ⟨[("Poverty_Rate", [Val.num 5, Val.num 5])]⟩)) :=
  risk_model_zero_std (fun q => q) ⟨[("Poverty_Rate", [Val.num 5, Val.num 5])]⟩
    "Poverty_Rate" (by decide) (by decide) (by decide) (by decide)
    (by
      show (decide (2 ≤ (List.filter Val.notna
          (Table.col ⟨[("Poverty_Rate", [Val.num 5, Val.num 5])]⟩
            "Poverty_Rate")).length) &&
        (List.filter Val.notna
          (Table.col ⟨[("Poverty_Rate", [Val.num 5, Val.num 5])]⟩
            "Poverty_Rate")).all Val.isFin &&
        decide (varQ (validNums
          (Table.col ⟨[("Poverty_Rate", [Val.num 5, Val.num 5])]⟩
            "Poverty_Rate")) = 0)) = true
      have hv : validNums (Table.col ⟨[("Poverty_Rate", [Val.num 5, Val.num 5])]⟩
          "Poverty_Rate") = [(5:ℚ), 5] := rfl
      have h3 : varQ [(5:ℚ), 5] = 0 := by
        norm_num [varQ, meanQ]
      rw [hv, h3]
      decide)

/--
C10 counterexample: `develop_isolation_risk_model` does not preserve every
input column — an input frame that already contains `Poverty_Rate_std`
(here the single value 99) has that column overwritten by the
standardization loop (to 0, since one lone value has no positive standard
deviation), so the output disagrees with the input on an input column.
-/
theorem develop_isolation_risk_model_overwrite_cex :
    "Poverty_Rate_std" ∈
      (Table.mk [("Poverty_Rate", [Val.num 5]),
        ("Poverty_Rate_std", [Val.num 99])]).colNames ∧
    (develop_isolation_risk_model (fun q => q)
        ⟨[("Poverty_Rate", [Val.num 5]), ("Poverty_Rate_std", [Val.num 99])]⟩).getCol?
        "Poverty_Rate_std" ≠
      (Table.mk [("Poverty_Rate", [Val.num 5]),
        ("Poverty_Rate_std", [Val.num 99])]).getCol? "Poverty_Rate_std" := by
  constructor
  · decide
  · decide

/--
C10 (amended): on a well-formed non-empty frame containing none of the
scorer's output names (`<factor>_std`, the three category scores,
`Social_Isolation_Risk_Index`, `Risk_Category`),
`develop_isolation_risk_model` preserves every input column unchanged and
appends exactly the `_std` columns of the present factors, the category
score of each group with a present factor, and — when some group has a
present factor — the index and risk-category columns.
-/
theorem develop_isolation_risk_model_frame (sq : ℚ → ℚ) (t : Table)
    (h1 : t.cols ≠ []) (hnz : t.nrows ≠ 0)
    (hrect : t.rect t.nrows) (hnd : t.colNames.Nodup)
    (hfresh : ∀ c ∈ gswrites riskFactorGroups ++
        ["Social_Isolation_Risk_Index", "Risk_Category"], t.hasCol c = false) :
    (∀ c ∈ t.colNames,
      (develop_isolation_risk_model sq t).getCol? c = t.getCol? c) ∧
    (develop_isolation_risk_model sq t).colNames =
      t.colNames ++ riskAppendedCols t.hasCol := by
  have hemp : t.isEmptyTab = false := isEmptyTab_eq_false t h1 hnz
  have hD1 : (gswrites riskFactorGroups).Nodup := by decide
  have hD2 : ∀ g ∈ riskFactorGroups, ∀ f' ∈ g.2,
      f' ∉ gswrites riskFactorGroups := by decide
  have hnew : ∀ c ∈ gswrites riskFactorGroups, t.hasCol c = false :=
    fun c hc => hfresh c (List.mem_append_left _ hc)
  obtain ⟨hA1, hA2, hA3, hAst, hAval, hAhas⟩ :=
    groupsFold_vals sq t.nrows riskFactorGroups t h1 hrect hnd hD1 hD2
  have hnames : (riskFactorGroups.foldl (groupStep sq) t).colNames =
      t.colNames ++ appendedGroups riskFactorGroups t.hasCol :=
    groupsFold_names sq t.nrows riskFactorGroups t h1 hrect hnd hD1 hD2 hnew
  have hmemw : ∀ c ∈ t.colNames, c ∉ gswrites riskFactorGroups := by
    intro c hc hw
    have := (Table.mem_colNames_iff_hasCol t c).mp hc
    rw [hnew c hw] at this
    cases this
  have hstab : ∀ c ∈ t.colNames,
      (riskFactorGroups.foldl (groupStep sq) t).getCol? c = t.getCol? c :=
    fun c hc => hAst c (hmemw c hc)
  have hdev0 : develop_isolation_risk_model sq t =
      (if (riskComponents.filter
            (riskFactorGroups.foldl (groupStep sq) t).hasCol).isEmpty
       then riskFactorGroups.foldl (groupStep sq) t
       else
        ((riskFactorGroups.foldl (groupStep sq) t).setCol
            "Social_Isolation_Risk_Index"
            (rowMeanSkipNa
              ((riskComponents.filter
                (riskFactorGroups.foldl (groupStep sq) t).hasCol).map
                (riskFactorGroups.foldl (groupStep sq) t).col)
              (riskFactorGroups.foldl (groupStep sq) t).nrows)).setCol
          "Risk_Category"
          ((((riskFactorGroups.foldl (groupStep sq) t).setCol
              "Social_Isolation_Risk_Index"
              (rowMeanSkipNa
                ((riskComponents.filter
                  (riskFactorGroups.foldl (groupStep sq) t).hasCol).map
                  (riskFactorGroups.foldl (groupStep sq) t).col)
                (riskFactorGroups.foldl (groupStep sq) t).nrows)).col
              "Social_Isolation_Risk_Index").map riskCut)) := by
    unfold develop_isolation_risk_model
    rw [hemp, if_neg Bool.false_ne_true]
  set dfG := riskFactorGroups.foldl (groupStep sq) t with hdfGdef
  set idxv := rowMeanSkipNa ((riskComponents.filter dfG.hasCol).map dfG.col)
    dfG.nrows with hidxvdef
  set df2 := dfG.setCol "Social_Isolation_Risk_Index" idxv with hdf2def
  set catv := (df2.col "Social_Isolation_Risk_Index").map riskCut with hcatvdef
  have hIdxG : "Social_Isolation_Risk_Index" ∉ gswrites riskFactorGroups := by
    decide
  have hCatG : "Risk_Category" ∉ gswrites riskFactorGroups := by decide
  have hIdxT : "Social_Isolation_Risk_Index" ∉ t.colNames := by
    intro hm
    have := (Table.mem_colNames_iff_hasCol t _).mp hm
    rw [hfresh "Social_Isolation_Risk_Index"
      (List.mem_append_right _ (by decide))] at this
    cases this
  have hCatT : "Risk_Category" ∉ t.colNames := by
    intro hm
    have := (Table.mem_colNames_iff_hasCol t _).mp hm
    rw [hfresh "Risk_Category" (List.mem_append_right _ (by decide))] at this
    cases this
  have hIdxdfG : dfG.hasCol "Social_Isolation_Risk_Index" = false := by
    rw [Bool.eq_false_iff]
    intro htrue
    have hm := (Table.mem_colNames_iff_hasCol dfG _).mpr htrue
    rw [hnames] at hm
    rcases List.mem_append.mp hm with hl | hr
    · exact hIdxT hl
    · exact hIdxG (mem_appendedGroups_sub _ _ _ hr)
  have hCatdf2 : df2.hasCol "Risk_Category" = false := by
    rw [Bool.eq_false_iff]
    intro htrue
    have hm := (Table.mem_colNames_iff_hasCol df2 _).mpr htrue
    rw [hdf2def, Table.colNames_setCol_of_not_has _ _ _ hIdxdfG, hnames] at hm
    rcases List.mem_append.mp hm with hl | hr
    · rcases List.mem_append.mp hl with hll | hlr
      · exact hCatT hll
      · exact hCatG (mem_appendedGroups_sub _ _ _ hlr)
    · rw [List.mem_singleton] at hr
      exact absurd hr (by decide)
  by_cases hav : (riskComponents.filter dfG.hasCol).isEmpty
  · have hdev : develop_isolation_risk_model sq t = dfG := by
      rw [hdev0, if_pos hav]
    have hallemp : ∀ g ∈ riskFactorGroups, (g.2.filter t.hasCol).isEmpty = true := by
      intro g hg
      cases hq : (g.2.filter t.hasCol).isEmpty with
      | true => rfl
      | false =>
        have hg1 := hAhas g hg hq
        have hcompmem : g.1 ∈ riskComponents :=
          List.mem_map.mpr ⟨g, hg, rfl⟩
        have hmem : g.1 ∈ riskComponents.filter dfG.hasCol :=
          List.mem_filter.mpr ⟨hcompmem, hg1⟩
        rw [List.isEmpty_iff.mp hav] at hmem
        cases hmem
    have hra : riskAppendedCols t.hasCol = appendedGroups riskFactorGroups t.hasCol := by
      unfold riskAppendedCols
      rw [if_pos (List.all_eq_true.mpr hallemp)]
      simp
    rw [hdev, hra]
    exact ⟨hstab, hnames⟩
  · have hdev : develop_isolation_risk_model sq t =
        df2.setCol "Risk_Category" catv := by
      rw [hdev0, if_neg hav]
    have hallne : riskFactorGroups.all (fun g => (g.2.filter t.hasCol).isEmpty) = false := by
      cases hq : riskFactorGroups.all (fun g => (g.2.filter t.hasCol).isEmpty) with
      | false => rfl
      | true =>
        have hAGnil : appendedGroups riskFactorGroups t.hasCol = [] :=
          appendedGroups_eq_nil_of_all_empty _ _ (List.all_eq_true.mp hq)
        have hfiltnil : riskComponents.filter dfG.hasCol = [] := by
          rw [List.filter_eq_nil_iff]
          intro c hc htrue
          have hm := (Table.mem_colNames_iff_hasCol dfG c).mpr htrue
          rw [hnames, hAGnil, List.append_nil] at hm
          have hc' : c ∈ riskFactorGroups.map Prod.fst := hc
          obtain ⟨g, hg, rfl⟩ := List.mem_map.mp hc'
          have := (Table.mem_colNames_iff_hasCol t g.1).mp hm
          rw [hnew g.1 (mem_gswrites_of_mem_gwrites _ g _ hg
            (List.mem_append_right _ (List.mem_singleton.mpr rfl)))] at this
          cases this
        rw [hfiltnil] at hav
        exact absurd rfl hav
    have hnames2 : df2.colNames = dfG.colNames ++ ["Social_Isolation_Risk_Index"] := by
      rw [hdf2def]
      exact Table.colNames_setCol_of_not_has _ _ _ hIdxdfG
    have hnamesout : (df2.setCol "Risk_Category" catv).colNames =
        df2.colNames ++ ["Risk_Category"] :=
      Table.colNames_setCol_of_not_has _ _ _ hCatdf2
    have hra : riskAppendedCols t.hasCol = appendedGroups riskFactorGroups t.hasCol ++
        ["Social_Isolation_Risk_Index", "Risk_Category"] := by
      unfold riskAppendedCols
      rw [if_neg (by rw [hallne]; exact Bool.false_ne_true)]
    rw [hdev]
    constructor
    · intro c hc
      have hcIdx : ¬(c = "Social_Isolation_Risk_Index") := by
        intro he
        exact hIdxT (he ▸ hc)
      have hcCat : ¬(c = "Risk_Category") := by
        intro he
        exact hCatT (he ▸ hc)
      rw [Table.getCol?_setCol_ne _ _ _ _ hcCat, hdf2def,
        Table.getCol?_setCol_ne _ _ _ _ hcIdx]
      exact hstab c hc
    · rw [hnamesout, hnames2, hnames, hra]
      simp [List.append_assoc]

/--
C10 witness: a frame with one ordinary column (`Population`) and no risk
factor keeps that column and, with every factor group empty, gains no
column at all.
-/
theorem develop_isolation_risk_model_frame_witness :
    (∀ c ∈ (Table.mk [("Population", [Val.num 1])]).colNames,
      (develop_isolation_risk_model (fun q => q)
        ⟨[("Population", [Val.num 1])]⟩).getCol? c =
        (Table.mk [("Population", [Val.num 1])]).getCol? c) ∧
    (develop_isolation_risk_model (fun q => q)
        ⟨[("Population", [Val.num 1])]⟩).colNames =
      (Table.mk [("Population", [Val.num 1])]).colNames ++
        riskAppendedCols (Table.mk [("Population", [Val.num 1])]).hasCol :=
  develop_isolation_risk_model_frame (fun q => q) ⟨[("Population", [Val.num 1])]⟩
    (by decide) (by decide) (by decide) (by decide) (by decide)

/-! ## The reshaper (C6, C8) -/

lemma insSorted_perm (le : α → α → Bool) (x : α) :
    ∀ l : List α, List.Perm (insSorted le x l) (x :: l)
  | [] => List.Perm.refl _
  | y :: ys => by
    unfold insSorted
    split
    · exact List.Perm.refl _
    · exact ((insSorted_perm le x ys).cons y).trans (List.Perm.swap x y ys)

lemma sortBy_perm (le : α → α → Bool) : ∀ l : List α, List.Perm (sortBy le l) l
  | [] => List.Perm.refl _
  | a :: l => by
    show List.Perm (insSorted le a (sortBy le l)) (a :: l)
    exact (insSorted_perm le a (sortBy le l)).trans ((sortBy_perm le l).cons a)

lemma mapped_mem_spec (input : List LongRow) (m : MappedRow)
    (h : m ∈ mappedRows input) :
    ∃ r ∈ input, lookupMapping r.varCode = some m.fname ∧
      m.geoid = r.geoid ∧ m.name = r.name := by
  obtain ⟨r, hr, he⟩ := List.mem_filterMap.mp h
  cases ho : lookupMapping r.varCode with
  | none => rw [ho] at he; cases he
  | some fn =>
    rw [ho, Option.map_some'] at he
    obtain rfl := Option.some.inj he
    exact ⟨r, hr, ho, rfl, rfl⟩

lemma wideKeys_nodup (mapped : List MappedRow) : (wideKeys mapped).Nodup :=
  ((sortBy_perm pairLe _).nodup_iff).mpr (List.nodup_dedup _)

lemma mem_wideKeys (mapped : List MappedRow) (k : String × String)
    (h : k ∈ wideKeys mapped) :
    ∃ m ∈ mapped, m.geoid = k.1 ∧ m.name = k.2 := by
  have h2 : k ∈ (mapped.map (fun m => (m.geoid, m.name))).dedup :=
    (sortBy_perm pairLe _).mem_iff.mp h
  obtain ⟨m, hm, he⟩ := List.mem_map.mp (List.mem_dedup.mp h2)
  exact ⟨m, hm, congrArg Prod.fst he, congrArg Prod.snd he⟩

lemma mem_wideFnames (mapped : List MappedRow) (fn : String)
    (h : fn ∈ wideFnames mapped) : ∃ m ∈ mapped, m.fname = fn := by
  have h2 : fn ∈ sortBy strLe ((mapped.map (fun m => m.fname)).dedup) :=
    (List.filter_sublist _).subset h
  have h3 : fn ∈ (mapped.map (fun m => m.fname)).dedup :=
    (sortBy_perm strLe _).mem_iff.mp h2
  exact List.mem_map.mp (List.mem_dedup.mp h3)

lemma transform_eq_of_ne (input : List LongRow) (h1 : input.isEmpty = false)
    (h2 : (mappedRows input).isEmpty = false) :
    transform_to_wide_format input =
      ⟨("GEOID", (wideKeys (mappedRows input)).map (fun k => Val.str k.1)) ::
       ("NAME", (wideKeys (mappedRows input)).map (fun k => Val.str k.2)) ::
       (wideFnames (mappedRows input)).map (fun fn =>
         (fn, (wideKeys (mappedRows input)).map (fun k =>
           match wideCell (mappedRows input) k fn with
           | some q => Val.num q
           | none => Val.num 0)))⟩ := by
  unfold transform_to_wide_format
  rw [h1, if_neg Bool.false_ne_true]
  show (if (mappedRows input).isEmpty = true then (⟨[]⟩ : Table) else _) = _
  rw [h2, if_neg Bool.false_ne_true]

lemma transform_col_geoid (input : List LongRow) (h1 : input.isEmpty = false)
    (h2 : (mappedRows input).isEmpty = false) :
    (transform_to_wide_format input).col "GEOID" =
      (wideKeys (mappedRows input)).map (fun k => Val.str k.1) := by
  rw [transform_eq_of_ne input h1 h2]
  rfl

lemma transform_col_name (input : List LongRow) (h1 : input.isEmpty = false)
    (h2 : (mappedRows input).isEmpty = false) :
    (transform_to_wide_format input).col "NAME" =
      (wideKeys (mappedRows input)).map (fun k => Val.str k.2) := by
  rw [transform_eq_of_ne input h1 h2]
  rfl

/--
C6 counterexample: two long rows with the same GEOID but different NAME
strings pivot (index `["GEOID", "NAME"]`) into two distinct index pairs,
so the wide table's GEOID column holds the same key twice — GEOID alone
is not unique per row.
-/
theorem transform_duplicate_geoid_cex :
    ¬ ((transform_to_wide_format
      [⟨"22033000100", "NameA", "B01003_001", some 1000⟩,
       ⟨"22033000100", "NameB", "B01003_001", some 500⟩]).col "GEOID").Nodup := by
  decide

/--
C6 (amended): the pivot's index is the `(GEOID, NAME)` pair, so the wide
table's `(GEOID, NAME)` pairs are always duplicate-free, and the GEOID
column itself is duplicate-free whenever each GEOID carries a single NAME
in the input (two rows agreeing on GEOID agree on NAME).
-/
theorem transform_geoid_unique (input : List LongRow) :
    ((((transform_to_wide_format input).col "GEOID").zip
       ((transform_to_wide_format input).col "NAME")).Nodup) ∧
    ((∀ r1 ∈ input, ∀ r2 ∈ input, r1.geoid = r2.geoid → r1.name = r2.name) →
      ((transform_to_wide_format input).col "GEOID").Nodup) := by
  by_cases h1 : input.isEmpty
  · have ht : transform_to_wide_format input = ⟨[]⟩ := by
      unfold transform_to_wide_format
      rw [if_pos h1]
    rw [ht]
    exact ⟨List.nodup_nil, fun _ => List.nodup_nil⟩
  · rw [Bool.not_eq_true] at h1
    by_cases h2 : (mappedRows input).isEmpty
    · have ht : transform_to_wide_format input = ⟨[]⟩ := by
        unfold transform_to_wide_format
        rw [h1, if_neg Bool.false_ne_true]
        show (if (mappedRows input).isEmpty = true then (⟨[]⟩ : Table) else _) = _
        rw [if_pos h2]
      rw [ht]
      exact ⟨List.nodup_nil, fun _ => List.nodup_nil⟩
    · rw [Bool.not_eq_true] at h2
      rw [transform_col_geoid input h1 h2, transform_col_name input h1 h2]
      constructor
      · rw [List.zip_map']
        refine List.Nodup.map ?_ (wideKeys_nodup _)
        intro a b he
        have hf := congrArg Prod.fst he
        have hs := congrArg Prod.snd he
        simp only [Val.str.injEq] at hf hs
        exact Prod.ext hf hs
      · intro hdep
        refine List.Nodup.map_on ?_ (wideKeys_nodup _)
        intro a ha b hb he
        simp only [Val.str.injEq] at he
        obtain ⟨m1, hm1, hg1, hn1⟩ := mem_wideKeys _ a ha
        obtain ⟨m2, hm2, hg2, hn2⟩ := mem_wideKeys _ b hb
        obtain ⟨r1, hr1, _, hg1', hn1'⟩ := mapped_mem_spec input m1 hm1
        obtain ⟨r2, hr2, _, hg2', hn2'⟩ := mapped_mem_spec input m2 hm2
        have hgr : r1.geoid = r2.geoid := by
          rw [← hg1', ← hg2', hg1, hg2, he]
        have hnr : r1.name = r2.name := hdep r1 hr1 r2 hr2 hgr
        refine Prod.ext he ?_
        rw [← hn1, ← hn2, hn1', hn2', hnr]

/--
C6 witness: a two-row input whose rows share GEOID and NAME pivots to a
GEOID column without duplicates.
-/
theorem transform_geoid_unique_witness :
    (∀ r1 ∈ [LongRow.mk "22033000100" "Tract 1" "B01003_001" (some 1000),
             LongRow.mk "22033000100" "Tract 1" "B25001_001" (some 500)],
     ∀ r2 ∈ [LongRow.mk "22033000100" "Tract 1" "B01003_001" (some 1000),
             LongRow.mk "22033000100" "Tract 1" "B25001_001" (some 500)],
       r1.geoid = r2.geoid → r1.name = r2.name) ∧
    ((transform_to_wide_format
      [LongRow.mk "22033000100" "Tract 1" "B01003_001" (some 1000),
       LongRow.mk "22033000100" "Tract 1" "B25001_001" (some 500)]).col
      "GEOID").Nodup :=
  ⟨by decide,
   (transform_geoid_unique
     [LongRow.mk "22033000100" "Tract 1" "B01003_001" (some 1000),
      LongRow.mk "22033000100" "Tract 1" "B25001_001" (some 500)]).2 (by decide)⟩

/--
C8 counterexample: `aggfunc="first"` keeps the first non-null value of a
duplicate `(key, name)` pair, not the first value — with a null first
estimate and a later 7, the pivot cell is 7, not the claimed
first-value-coerced-to-zero.
-/
theorem transform_first_nonnull_cex :
    (transform_to_wide_format
      [⟨"22033000100", "Tract 1", "B01003_001", none⟩,
       ⟨"22033000100", "Tract 1", "B01003_001", some 7⟩]).getCol?
      "Total_Population" = some [Val.num 7] ∧
    some [Val.num 7] ≠ some [Val.num 0] := by
  constructor
  · decide
  · decide

/--
C8 (amended): the reshaper drops rows whose variable code has no mapping
entry (every non-GEOID/NAME output column comes from a mapped input row),
Scenario 1's two-row long table pivots to exactly one row with
`GEOID=22033000100`, `Total_Population=1000`, `Total_Housing_Units=500`,
and an empty input yields an empty output table; duplicate `(key, name)`
pairs, however, resolve to the first non-null value, not the first value.
-/
theorem transform_scenario1_spec :
    transform_to_wide_format
      [⟨"22033000100", "Tract 1", "B01003_001", some 1000⟩,
       ⟨"22033000100", "Tract 1", "B25001_001", some 500⟩] =
      ⟨[("GEOID", [Val.str "22033000100"]), ("NAME", [Val.str "Tract 1"]),
        ("Total_Housing_Units", [Val.num 500]),
        ("Total_Population", [Val.num 1000])]⟩ ∧
    transform_to_wide_format [] = ⟨[]⟩ ∧
    ∀ (input : List LongRow), ∀ c ∈ (transform_to_wide_format input).colNames,
      c = "GEOID" ∨ c = "NAME" ∨ ∃ r ∈ input, lookupMapping r.varCode = some c := by
  refine ⟨by decide, by decide, ?_⟩
  intro input c hc
  by_cases h1 : input.isEmpty
  · have ht : transform_to_wide_format input = ⟨[]⟩ := by
      unfold transform_to_wide_format
      rw [if_pos h1]
    rw [ht] at hc
    cases hc
  · rw [Bool.not_eq_true] at h1
    by_cases h2 : (mappedRows input).isEmpty
    · have ht : transform_to_wide_format input = ⟨[]⟩ := by
        unfold transform_to_wide_format
        rw [h1, if_neg Bool.false_ne_true]
        show (if (mappedRows input).isEmpty = true then (⟨[]⟩ : Table) else _) = _
        rw [if_pos h2]
      rw [ht] at hc
      cases hc
    · rw [Bool.not_eq_true] at h2
      rw [transform_eq_of_ne input h1 h2] at hc
      have hc' : c ∈ "GEOID" :: "NAME" ::
          ((wideFnames (mappedRows input)).map (fun fn =>
            (fn, (wideKeys (mappedRows input)).map (fun k =>
              match wideCell (mappedRows input) k fn with
              | some q => Val.num q
              | none => Val.num 0)))).map Prod.fst := hc
      rcases List.mem_cons.mp hc' with hg | hc2
      · exact Or.inl hg
      rcases List.mem_cons.mp hc2 with hn | hc3
      · exact Or.inr (Or.inl hn)
      refine Or.inr (Or.inr ?_)
      rw [List.map_map] at hc3
      obtain ⟨fn, hfn, he⟩ := List.mem_map.mp hc3
      obtain ⟨m, hm, hmf⟩ := mem_wideFnames _ _ hfn
      obtain ⟨r, hr, hlook, _, _⟩ := mapped_mem_spec input m hm
      refine ⟨r, hr, ?_⟩
      rw [hlook, hmf]
      exact congrArg some he

/--
C8 witness: in Scenario 1's output, the `Total_Population` column is
traced back to a mapped input row.
-/
theorem transform_scenario1_spec_witness :
    "Total_Population" ∈ (transform_to_wide_format
      [LongRow.mk "22033000100" "Tract 1" "B01003_001" (some 1000),
       LongRow.mk "22033000100" "Tract 1" "B25001_001" (some 500)]).colNames ∧
    ("Total_Population" = "GEOID" ∨ "Total_Population" = "NAME" ∨
      ∃ r ∈ [LongRow.mk "22033000100" "Tract 1" "B01003_001" (some 1000),
             LongRow.mk "22033000100" "Tract 1" "B25001_001" (some 500)],
        lookupMapping r.varCode = some "Total_Population") :=
  ⟨by decide,
   transform_scenario1_spec.2.2
     [LongRow.mk "22033000100" "Tract 1" "B01003_001" (some 1000),
      LongRow.mk "22033000100" "Tract 1" "B25001_001" (some 500)]
     "Total_Population" (by decide)⟩

end BatonRouge
